import Mathlib

/-!
Verification development for the midi-studio-loader flashing core.

The Rust sources are shallowly embedded: strings are lists of characters,
byte buffers are lists of naturals (each byte value below 256), machine
integers are naturals with explicit bounds or reductions modulo two to the
power of the word width where the code relies on overflow behaviour, and
fallible operations return an Except value mirroring the Rust Result.
Operating-system collaborators (HID enumeration, serial ports, the service
manager, IPC) are abstracted as oracle records whose fields stand for the
outcomes the collaborator can produce; the control flow around them is
translated from the source.
-/

/-- Characters of a Rust string, in order. -/
abbrev Str := List Char

/-- Model of Rust str trim: drop whitespace from both ends. -/
def trimChars (l : Str) : Str :=
  ((l.dropWhile Char.isWhitespace).reverse.dropWhile Char.isWhitespace).reverse

/-- Lexicographic comparison of strings, matching Rust Ord for String. -/
def strLe : Str → Str → Bool
  | [], _ => true
  | _ :: _, [] => false
  | a :: as, b :: bs => if a < b then true else if b < a then false else strLe as bs

/-- Insert into a sorted list, keeping strLe-order. -/
def insertSorted (x : Str) : List Str → List Str
  | [] => [x]
  | y :: ys => if strLe x y then x :: y :: ys else y :: insertSorted x ys

/-- Model of Vec sort for strings (insertion sort by strLe). -/
def sortStrings (l : List Str) : List Str :=
  l.foldr insertSorted []

-- ## teensy41.rs: target constants

def VID : Nat := 0x16C0
def PID_HALFKAY : Nat := 0x0478
def CODE_SIZE : Nat := 8126464
def BLOCK_SIZE : Nat := 1024
def HEADER_SIZE : Nat := 64
def PACKET_SIZE : Nat := HEADER_SIZE + BLOCK_SIZE
def FLEXSPI_BASE : Nat := 0x60000000

-- ## hex.rs: Intel HEX parser and firmware image

/-- Errors of the HEX loader (hex.rs HexError; the Io arm is omitted because
the embedding receives the decoded lines directly). -/
inductive HexError
  | NotText (line_no : Nat)
  | InvalidLine (line_no : Nat) (msg : Str)
  | InvalidChecksum (line_no : Nat)
  | AddressOverflow (line_no : Nat)
  | AddressOutOfRange (line_no : Nat) (addr : Nat)
deriving DecidableEq, Repr

/-- hex.rs from_hex_digit. -/
def from_hex_digit (c : Char) : Option Nat :=
  if '0' ≤ c ∧ c ≤ '9' then some (c.toNat - '0'.toNat)
  else if 'a' ≤ c ∧ c ≤ 'f' then some (c.toNat - 'a'.toNat + 10)
  else if 'A' ≤ c ∧ c ≤ 'F' then some (c.toNat - 'A'.toNat + 10)
  else none

/-- hex.rs decode_hex_bytes: pairs of hex digits to bytes; errors are the
human message of the Rust version. -/
def decode_hex_bytes : Str → Except Str (List Nat)
  | [] => .ok []
  | [_] => .error "odd number of hex digits".data
  | hi :: lo :: rest =>
    match from_hex_digit hi, from_hex_digit lo with
    | some h, some l =>
      match decode_hex_bytes rest with
      | .ok out => .ok ((h * 16 + l) :: out)
      | .error e => .error e
    | _, _ => .error "invalid hex digit".data

/-- hex.rs checksum_ihex: wrapping byte sum, then two's complement. -/
def checksum_ihex (bytes : List Nat) : Nat :=
  let sum := bytes.foldl (fun acc b => (acc + b) % 256) 0
  (256 - sum) % 256

/-- hex.rs map_teensy41_addr: valid firmware addresses after FlexSPI mapping. -/
def map_teensy41_addr (addr : Nat) : Option Nat :=
  if addr < CODE_SIZE then some addr else none

/-- Mutable state of the HEX parse loop. -/
structure ParseState where
  data : List Nat
  mask : List Bool
  byte_count : Nat
  ext_addr : Nat
deriving DecidableEq, Repr

/-- Data-record byte placement (body of the for-loop over the payload in
load_teensy41): checked 32-bit address arithmetic, then the address map. -/
def write_bytes (line_no ext_addr addr : Nat) :
    List Nat → Nat → List Nat → List Bool → Except HexError (List Nat × List Bool)
  | [], _, data, mask => .ok (data, mask)
  | b :: rest, i, data, mask =>
    let abs := ext_addr + addr + i
    if 2 ^ 32 ≤ abs then .error (.AddressOverflow line_no)
    else
      match map_teensy41_addr abs with
      | none => .error (.AddressOutOfRange line_no abs)
      | some a => write_bytes line_no ext_addr addr rest (i + 1) (data.set a b) (mask.set a true)

/-- Result of one line of the parse loop: continue, or stop at an EOF record. -/
inductive LineStep
  | cont (st : ParseState)
  | eof (st : ParseState)
deriving DecidableEq, Repr

/-- Record dispatch of load_teensy41 (the match on rec_type). -/
def apply_record (st : ParseState) (line_no len addr rec_type : Nat) (payload : List Nat) :
    Except HexError LineStep :=
  if rec_type = 0 then
    match write_bytes line_no st.ext_addr addr payload 0 st.data st.mask with
    | .error e => .error e
    | .ok (data, mask) =>
      .ok (.cont ⟨data, mask, st.byte_count + len, st.ext_addr⟩)
  else if rec_type = 1 then
    .ok (.eof st)
  else if rec_type = 2 then
    if len = 2 then
      let seg := payload.getD 0 0 * 256 + payload.getD 1 0
      .ok (.cont ⟨st.data, st.mask, st.byte_count, seg * 16⟩)
    else .ok (.cont st)
  else if rec_type = 4 then
    if len = 2 then
      let hi := payload.getD 0 0 * 256 + payload.getD 1 0
      let e := hi * 65536
      let e := if FLEXSPI_BASE ≤ e ∧ e < FLEXSPI_BASE + CODE_SIZE then e - FLEXSPI_BASE else e
      .ok (.cont ⟨st.data, st.mask, st.byte_count, e⟩)
    else .ok (.cont st)
  else .ok (.cont st)

/-- One line of load_teensy41: trim, skip blanks, require the colon, decode,
check the structural length, check the checksum, then dispatch the record. -/
def process_line (st : ParseState) (line_no : Nat) (raw : Str) : Except HexError LineStep :=
  let line := trimChars raw
  match line with
  | [] => .ok (.cont st)
  | c :: rest =>
    if c ≠ ':' then .error (.InvalidLine line_no "missing colon prefix".data)
    else
      match decode_hex_bytes rest with
      | .error e => .error (.InvalidLine line_no e)
      | .ok bytes =>
        if bytes.length < 5 then .error (.InvalidLine line_no "record too short".data)
        else
          let len := bytes.getD 0 0
          let addr := bytes.getD 1 0 * 256 + bytes.getD 2 0
          let rec_type := bytes.getD 3 0
          if bytes.length ≠ 5 + len then .error (.InvalidLine line_no "bad length".data)
          else
            let payload := (bytes.drop 4).take len
            let checksum := bytes.getD (4 + len) 0
            if checksum ≠ checksum_ihex (bytes.take (4 + len)) then
              .error (.InvalidChecksum line_no)
            else apply_record st line_no len addr rec_type payload

/-- The parse loop of load_teensy41 over the decoded lines of the file. -/
def load_lines : List Str → Nat → ParseState → Except HexError ParseState
  | [], _, st => .ok st
  | l :: ls, line_no, st =>
    match process_line st line_no l with
    | .error e => .error e
    | .ok (.eof st2) => .ok st2
    | .ok (.cont st2) => load_lines ls (line_no + 1) st2

/-- Initial parse state: CODE_SIZE bytes of 0xFF, an all-false mask. -/
def initState : ParseState :=
  ⟨List.replicate CODE_SIZE 0xFF, List.replicate CODE_SIZE false, 0, 0⟩

/-- hex.rs is_block_blank: a block is blank when no presence-masked byte in it
differs from 0xFF. -/
def is_block_blank (data : List Nat) (mask : List Bool) (start : Nat) : Bool :=
  (List.range' start BLOCK_SIZE).all fun i =>
    !(mask.getD i false && decide (data.getD i 0xFF ≠ 0xFF))

/-- The blocks_to_write computation at the end of load_teensy41: block 0
always, later blocks when not blank. -/
def blocks_to_write_of (data : List Nat) (mask : List Bool) : List Nat :=
  (List.range (CODE_SIZE / BLOCK_SIZE)).filterMap fun block_idx =>
    let start := block_idx * BLOCK_SIZE
    if block_idx = 0 then some start
    else if is_block_blank data mask start then none
    else some start

/-- hex.rs FirmwareImage. -/
structure FirmwareImage where
  data : List Nat
  byte_count : Nat
  num_blocks : Nat
  blocks_to_write : List Nat
deriving DecidableEq, Repr

/-- Packaging of the final parse state as the returned image. -/
def image_of (st : ParseState) : FirmwareImage :=
  ⟨st.data, st.byte_count, CODE_SIZE / BLOCK_SIZE, blocks_to_write_of st.data st.mask⟩

/-- hex.rs FirmwareImage load_teensy41, over the decoded lines of the file. -/
def load_teensy41 (lines : List Str) : Except HexError FirmwareImage :=
  (load_lines lines 1 initState).map image_of

-- ## targets.rs: the target model

/-- targets.rs TargetKind. -/
inductive TargetKind
  | HalfKay
  | Serial
deriving DecidableEq, Repr

/-- targets.rs HalfKayTarget. -/
structure HalfKayTarget where
  vid : Nat
  pid : Nat
  path : Str
deriving DecidableEq, Repr

/-- targets.rs SerialTarget. -/
structure SerialTarget where
  port_name : Str
  vid : Nat
  pid : Nat
  serial_number : Option Str
  manufacturer : Option Str
  product : Option Str
deriving DecidableEq, Repr

/-- targets.rs Target. -/
inductive Target
  | HalfKay (t : HalfKayTarget)
  | Serial (t : SerialTarget)
deriving DecidableEq, Repr

/-- targets.rs Target kind. -/
def Target.kind : Target → TargetKind
  | .HalfKay _ => .HalfKay
  | .Serial _ => .Serial

/-- targets.rs Target id: the stable identifier string. -/
def Target.id : Target → Str
  | .HalfKay t => "halfkay:".data ++ t.path
  | .Serial t => "serial:".data ++ t.port_name

-- ## selector.rs

/-- selector.rs TargetSelector. -/
inductive TargetSelector
  | Index (i : Nat)
  | Id (s : Str)
deriving DecidableEq, Repr

/-- selector.rs SelectorError. -/
inductive SelectorError
  | InvalidSelector (msg : Str)
  | IndexOutOfRange (index len : Nat)
  | NoMatch (selector : Str)
  | MultipleMatches (selector : Str)
deriving DecidableEq, Repr

/-- Digits-only parse of a usize (model of str parse; usize overflow for
inputs beyond 2 to the 64 is not modelled). -/
def parseNatDigits (s : Str) : Option Nat :=
  if s ≠ [] ∧ s.all Char.isDigit then
    some (s.foldl (fun acc c => acc * 10 + (c.toNat - '0'.toNat)) 0)
  else none

/-- selector.rs parse_selector. -/
def parse_selector (s : Str) : Except SelectorError TargetSelector :=
  let s := trimChars s
  if s = [] then .error (.InvalidSelector "empty".data)
  else if "index:".data.isPrefixOf s then
    let rest := trimChars (s.drop "index:".data.length)
    match parseNatDigits rest with
    | some idx => .ok (.Index idx)
    | none => .error (.InvalidSelector ("invalid index: ".data ++ rest))
  else if "serial:".data.isPrefixOf s || "halfkay:".data.isPrefixOf s then
    .ok (.Id s)
  else if s.all Char.isDigit then
    match parseNatDigits s with
    | some idx => .ok (.Index idx)
    | none => .error (.InvalidSelector ("invalid index: ".data ++ s))
  else
    .ok (.Id ("serial:".data ++ s))

/-- selector.rs resolve: indices matched by a selector. -/
def resolve (selector : TargetSelector) (targets : List Target) :
    Except SelectorError (List Nat) :=
  match selector with
  | .Index i =>
    if targets.length ≤ i then .error (.IndexOutOfRange i targets.length)
    else .ok [i]
  | .Id id =>
    .ok (targets.enum.filterMap fun p => if (p.2).id = id then some p.1 else none)

/-- selector.rs selector_string (Display of a selector). -/
def selector_string : TargetSelector → Str
  | .Index i => "index:".data ++ (toString i).data
  | .Id id => id

/-- selector.rs resolve_one: require exactly one match. -/
def resolve_one (selector : TargetSelector) (targets : List Target) :
    Except SelectorError Nat :=
  match resolve selector targets with
  | .error e => .error e
  | .ok found =>
    if found = [] then .error (.NoMatch (selector_string selector))
    else if 1 < found.length then .error (.MultipleMatches (selector_string selector))
    else .ok (found.getD 0 0)

/-- Display of SelectorError (thiserror messages), kept abstract as a tag
string; only its existence matters to the claims. -/
def SelectorError.msg : SelectorError → Str
  | .InvalidSelector m => "invalid selector: ".data ++ m
  | .IndexOutOfRange _ _ => "index out of range".data
  | .NoMatch s => "no target matched: ".data ++ s
  | .MultipleMatches s => "multiple targets matched: ".data ++ s

-- ## bootloader.rs: wait for a new HalfKay path

/-- bootloader.rs WaitHalfKayError (the ListFailed payload is dropped). -/
inductive WaitHalfKayError
  | ListFailed
  | Ambiguous (count : Nat)
  | Timeout
deriving DecidableEq, Repr

/-- The filter inside diff_new_halfkay: current paths not present before. -/
def newOf (before now : List Str) : List Str :=
  now.filter fun p => !(before.contains p)

/-- bootloader.rs diff_new_halfkay. -/
def diff_new_halfkay (before now : List Str) : Except WaitHalfKayError (Option Str) :=
  let new := sortStrings (newOf before now)
  if new.length = 1 then .ok (new.head?)
  else if 1 < new.length then .error (.Ambiguous new.length)
  else .ok none

/-- bootloader.rs wait_for_new_halfkay, over an observation trace: each poll
is the result of list_paths together with the elapsed milliseconds at the
timeout check of that iteration.  A none result means the finite trace ended
before the loop decided (the real loop would keep polling). -/
def wait_for_new_halfkay (before : List Str) (timeout : Nat) :
    List (Except Unit (List Str) × Nat) → Option (Except WaitHalfKayError Str)
  | [] => none
  | (.error _, _) :: _ => some (.error .ListFailed)
  | (.ok now, elapsed) :: rest =>
    match diff_new_halfkay before now with
    | .error e => some (.error e)
    | .ok (some p) => some (.ok p)
    | .ok none =>
      if timeout ≤ elapsed then some (.error .Timeout)
      else wait_for_new_halfkay before timeout rest

-- ## bridge_control: pause outcome model

/-- bridge_control BridgePauseMethod. -/
inductive BridgePauseMethod
  | Control
  | Service
  | Process
deriving DecidableEq, Repr

/-- bridge_control BridgePauseInfo. -/
structure BridgePauseInfo where
  method : BridgePauseMethod
  id : Str
  pids : List Nat
deriving DecidableEq, Repr

/-- bridge_control BridgePauseSkipReason. -/
inductive BridgePauseSkipReason
  | Disabled
  | NotRunning
  | NotInstalled
  | ProcessNotRestartable
deriving DecidableEq, Repr

/-- bridge_control BridgeControlErrorInfo. -/
structure BridgeControlErrorInfo where
  message : Str
  hint : Option Str
deriving DecidableEq, Repr

/-- bridge_control BridgePauseOutcome. -/
inductive BridgePauseOutcome
  | Paused (info : BridgePauseInfo)
  | Skipped (reason : BridgePauseSkipReason)
  | Failed (error : BridgeControlErrorInfo)
deriving DecidableEq, Repr

/-- Model of bridge_control BridgeGuard: the held resume plan is reduced to
the outcome its resume would have and the hint it exposes. -/
structure BridgeGuard where
  resume_ok : Bool
  hint : Option Str
deriving DecidableEq, Repr

/-- bridge_control BridgePause. -/
structure BridgePause where
  guard : Option BridgeGuard
  outcome : BridgePauseOutcome
deriving DecidableEq, Repr

/-- bridge_control ServiceStatus. -/
inductive ServiceStatus
  | Running
  | Stopped
  | NotInstalled
deriving DecidableEq, Repr

/-- bridge_control process ProcessPauseOutcome. -/
inductive ProcessPauseOutcome
  | Paused (info : BridgePauseInfo)
  | Skipped (reason : BridgePauseSkipReason)
  | Failed (error : BridgeControlErrorInfo)
deriving DecidableEq, Repr

/-- bridge_control BridgeControlMethod. -/
inductive BridgeControlMethod
  | Auto
  | Control
  | Service
  | Process
  | NoneMethod
deriving DecidableEq, Repr

/-- bridge_control BridgeControlOptions (durations as milliseconds). -/
structure BridgeControlOptions where
  enabled : Bool
  method : BridgeControlMethod
  allow_process_fallback : Bool
  service_id : Option Str
  timeout : Nat
  control_port : Nat
  control_timeout : Nat
deriving DecidableEq, Repr

/-- Outcomes of the operating-system collaborators consulted while pausing
the bridge: IPC pause, service query and stop, the process fallback, and
whether a later resume of the captured plan would succeed. -/
structure BridgeOracle where
  control_pause : Bool
  service_status : Except Unit ServiceStatus
  stop_service : Bool
  process_pause : ProcessPauseOutcome
  resume_ok : Bool
deriving Repr

/-- bridge_control default_service_id_for_platform, kept platform-neutral. -/
def default_service_id_for_platform : Str := "open-control-bridge".data

/-- bridge_control pause_control_only. -/
def pause_control_only (opts : BridgeControlOptions) (oracle : BridgeOracle) : BridgePause :=
  if oracle.control_pause then
    ⟨some ⟨oracle.resume_ok, some "resume over control port".data⟩,
     .Paused ⟨.Control, "127.0.0.1".data, []⟩⟩
  else
    ⟨none, .Failed ⟨"oc-bridge control pause failed".data,
                    some "retry the control pause".data⟩⟩

/-- bridge_control pause_service_only. -/
def pause_service_only (opts : BridgeControlOptions) (service_id : Str)
    (oracle : BridgeOracle) : BridgePause :=
  match oracle.service_status with
  | .ok .Running =>
    if oracle.stop_service then
      ⟨some ⟨oracle.resume_ok, some "start the service".data⟩,
       .Paused ⟨.Service, service_id, []⟩⟩
    else ⟨none, .Failed ⟨"unable to stop bridge service".data,
                         some "stop the service manually".data⟩⟩
  | .ok .Stopped => ⟨none, .Skipped .NotRunning⟩
  | .ok .NotInstalled => ⟨none, .Skipped .NotInstalled⟩
  | .error _ => ⟨none, .Failed ⟨"unable to query bridge service".data,
                                some "query the service manually".data⟩⟩

/-- bridge_control pause_process_only. -/
def pause_process_only (opts : BridgeControlOptions) (oracle : BridgeOracle) : BridgePause :=
  if !opts.allow_process_fallback then
    ⟨none, .Failed ⟨"process fallback disabled".data, some "enable process fallback".data⟩⟩
  else
    match oracle.process_pause with
    | .Paused info => ⟨some ⟨oracle.resume_ok, none⟩, .Paused info⟩
    | .Skipped .NotRunning => ⟨none, .Skipped .NotRunning⟩
    | .Skipped _ =>
      ⟨none, .Failed ⟨"process fallback unavailable".data,
                      some "ensure the process is restartable".data⟩⟩
    | .Failed e => ⟨none, .Failed e⟩

/-- bridge_control pause_auto: IPC first, then the service, then the optional
process fallback. -/
def pause_auto (opts : BridgeControlOptions) (service_id : Str)
    (oracle : BridgeOracle) : BridgePause :=
  if oracle.control_pause then
    ⟨some ⟨oracle.resume_ok, some "resume over control port".data⟩,
     .Paused ⟨.Control, "127.0.0.1".data, []⟩⟩
  else
    match oracle.service_status with
    | .ok .Running =>
      if oracle.stop_service then
        ⟨some ⟨oracle.resume_ok, some "start the service".data⟩,
         .Paused ⟨.Service, service_id, []⟩⟩
      else ⟨none, .Failed ⟨"unable to stop bridge service".data,
                           some "stop the service manually".data⟩⟩
    | .ok .Stopped => ⟨none, .Skipped .NotRunning⟩
    | .error _ => ⟨none, .Failed ⟨"unable to query bridge service".data,
                                  some "query the service manually".data⟩⟩
    | .ok .NotInstalled =>
      if !opts.allow_process_fallback then ⟨none, .Skipped .NotInstalled⟩
      else
        match oracle.process_pause with
        | .Paused info => ⟨some ⟨oracle.resume_ok, none⟩, .Paused info⟩
        | .Skipped reason => ⟨none, .Skipped reason⟩
        | .Failed e => ⟨none, .Failed e⟩

/-- bridge_control pause_oc_bridge. -/
def pause_oc_bridge (opts : BridgeControlOptions) (oracle : BridgeOracle) : BridgePause :=
  if !opts.enabled || opts.method = .NoneMethod then ⟨none, .Skipped .Disabled⟩
  else
    let service_id := opts.service_id.getD default_service_id_for_platform
    match opts.method with
    | .Auto => pause_auto opts service_id oracle
    | .Control => pause_control_only opts oracle
    | .Service => pause_service_only opts service_id oracle
    | .Process => pause_process_only opts oracle
    | .NoneMethod => ⟨none, .Skipped .Disabled⟩

-- ## operation.rs: the event stream

/-- operation.rs OperationEvent. -/
inductive OperationEvent
  | DiscoverStart
  | TargetDetected (index : Nat) (target : Target)
  | DiscoverDone (count : Nat)
  | TargetSelected (target_id : Str)
  | BridgePauseStart
  | BridgePaused (info : BridgePauseInfo)
  | BridgePauseSkipped (reason : BridgePauseSkipReason)
  | BridgePauseFailed (error : BridgeControlErrorInfo)
  | BridgeResumeStart
  | BridgeResumed
  | BridgeResumeFailed (error : BridgeControlErrorInfo)
  | HexLoaded (bytes blocks : Nat)
  | TargetStart (target_id : Str) (kind : TargetKind)
  | TargetDone (target_id : Str) (ok : Bool) (message : Option Str)
  | SoftReboot (target_id port : Str)
  | SoftRebootSkipped (target_id error : Str)
  | HalfKayAppeared (target_id path : Str)
  | HalfKayOpen (target_id path : Str)
  | Block (target_id : Str) (index total addr : Nat)
  | Retry (target_id : Str) (addr attempt retries : Nat) (error : Str)
  | Boot (target_id : Str)
  | Done (target_id : Str)
deriving DecidableEq, Repr

-- ## api.rs: flash errors, selection, and the flash run

/-- api.rs FlashErrorKind. -/
inductive FlashErrorKind
  | NoDevice
  | AmbiguousTarget
  | InvalidHex
  | WriteFailed
  | Unexpected
deriving DecidableEq, Repr

/-- api.rs FlashError (error sources reduced to the structural context the
claims mention). -/
inductive FlashError
  | NoTargets
  | AmbiguousTarget (message : Str)
  | DiscoveryFailed
  | InvalidHex
  | SoftRebootFailed (port : Str)
  | OpenHalfKay (path : Str)
  | WriteFailed (addr attempts : Nat)
  | ReopenFailed (path : Str) (addr : Nat)
  | MultiTargetFailed (failed total : Nat)
deriving DecidableEq, Repr

/-- api.rs FlashError kind. -/
def FlashError.kind : FlashError → FlashErrorKind
  | .NoTargets => .NoDevice
  | .AmbiguousTarget _ => .AmbiguousTarget
  | .DiscoveryFailed => .Unexpected
  | .InvalidHex => .InvalidHex
  | .SoftRebootFailed _ => .NoDevice
  | .OpenHalfKay _ => .NoDevice
  | .WriteFailed _ _ => .WriteFailed
  | .ReopenFailed _ _ => .WriteFailed
  | .MultiTargetFailed _ _ => .WriteFailed

/-- Display of FlashError, kept as a short tag string for TargetDone
messages. -/
def FlashError.msg : FlashError → Str
  | .NoTargets => "no target device found".data
  | .AmbiguousTarget m => "ambiguous target: ".data ++ m
  | .DiscoveryFailed => "target discovery failed".data
  | .InvalidHex => "invalid HEX".data
  | .SoftRebootFailed p => "soft reboot failed on ".data ++ p
  | .OpenHalfKay p => "unable to open HalfKay device at ".data ++ p
  | .WriteFailed _ _ => "write failed".data
  | .ReopenFailed p _ => "unable to reopen HalfKay device at ".data ++ p
  | .MultiTargetFailed _ _ => "flash failed for some targets".data

/-- api.rs FlashSelection (Device carries the raw selector string). -/
inductive FlashSelection
  | Auto
  | All
  | Device (s : Str)
deriving DecidableEq, Repr

/-- The selection computation of api.rs select_targets (everything before
the TargetSelected emission), for a non-empty target list. -/
def select_targets_core (selection : FlashSelection) (serial_port : Option Str)
    (targets : List Target) : Except FlashError (List Target) :=
  let halfkay := targets.filter fun t => t.kind = TargetKind.HalfKay
  let serial := targets.filter fun t => t.kind = TargetKind.Serial
  match selection with
  | .All => .ok targets
  | .Device sel =>
    match parse_selector sel with
    | .error e => .error (.AmbiguousTarget e.msg)
    | .ok parsed =>
      match resolve_one parsed targets with
      | .error e => .error (.AmbiguousTarget e.msg)
      | .ok idx => .ok [targets.getD idx (Target.HalfKay ⟨0, 0, []⟩)]
  | .Auto =>
    if halfkay.length = 1 then .ok [halfkay.getD 0 (Target.HalfKay ⟨0, 0, []⟩)]
    else if halfkay ≠ [] then
      .error (.AmbiguousTarget "multiple HalfKay devices detected".data)
    else
      match serial_port with
      | some port =>
        let found := serial.filter fun t =>
          match t with
          | .Serial s => s.port_name = port
          | _ => false
        if found.length = 1 then .ok [found.getD 0 (Target.HalfKay ⟨0, 0, []⟩)]
        else if found = [] then .error .NoTargets
        else .error (.AmbiguousTarget "multiple targets matched preferred serial port".data)
      | none =>
        if targets.length = 1 then .ok [targets.getD 0 (Target.HalfKay ⟨0, 0, []⟩)]
        else .error (.AmbiguousTarget "multiple targets detected".data)

/-- api.rs select_targets: returns the emitted events next to the result. -/
def select_targets (selection : FlashSelection) (serial_port : Option Str)
    (targets : List Target) (emit_selected_event : Bool) :
    List OperationEvent × Except FlashError (List Target) :=
  if targets = [] then ([], .error .NoTargets)
  else
    match select_targets_core selection serial_port targets with
    | .error e => ([], .error e)
    | .ok sel =>
      if emit_selected_event ∧ sel.length = 1 then
        ([.TargetSelected ((sel.getD 0 (Target.HalfKay ⟨0, 0, []⟩)).id)], .ok sel)
      else ([], .ok sel)

/-- Outcomes of the collaborators consulted by flash_one_target and
flash_halfkay_path: the serial reboot, the bootloader wait, HID open and
reopen, and each write attempt; blocks_to_write, retries and no_reboot of
the loaded image and options are carried along. -/
structure FlashOracle where
  soft_reboot : Str → Except Str Unit
  wait_new : Except WaitHalfKayError Str
  open_ok : Str → Bool
  write_ok : Nat → Nat → Bool
  reopen_ok : Str → Bool
  blocks : List Nat
  retries : Nat
  no_reboot : Bool

/-- Display of a bootloader wait error (thiserror), as a tag string. -/
def WaitHalfKayError.msg : WaitHalfKayError → Str
  | .ListFailed => "HalfKay list failed".data
  | .Ambiguous _ => "multiple new HalfKay devices appeared".data
  | .Timeout => "HalfKay did not appear after soft reboot".data

/-- The write-retry loop of flash_halfkay_path for a single block: attempt
numbers start at 1; after a failed attempt beyond the retry budget the
write fails; otherwise a Retry event is emitted and the device is reopened
by path before the next attempt. -/
def write_loop (oracle : FlashOracle) (path target_id : Str) (addr : Nat) :
    Nat → Nat → List OperationEvent × Except FlashError Unit
  | _, 0 => ([], .ok ())
  | attempt, fuel + 1 =>
    if oracle.write_ok addr attempt then ([], .ok ())
    else if oracle.retries < attempt then ([], .error (.WriteFailed addr attempt))
    else if oracle.reopen_ok path then
      let next := write_loop oracle path target_id addr (attempt + 1) fuel
      (.Retry target_id addr attempt oracle.retries "write error".data :: next.1, next.2)
    else
      ([.Retry target_id addr attempt oracle.retries "write error".data],
       .error (.ReopenFailed path addr))

/-- The per-block streaming loop of flash_halfkay_path over the enumerated
blocks_to_write. -/
def stream_blocks (oracle : FlashOracle) (path target_id : Str) (total : Nat) :
    List (Nat × Nat) → List OperationEvent × Except FlashError Unit
  | [] => ([], .ok ())
  | (i, addr) :: rest =>
    let attempt := write_loop oracle path target_id addr 1 (oracle.retries + 1)
    let ev := OperationEvent.Block target_id i total addr
    match attempt.2 with
    | .error e => (ev :: attempt.1, .error e)
    | .ok () =>
      let next := stream_blocks oracle path target_id total rest
      (ev :: attempt.1 ++ next.1, next.2)

/-- api.rs flash_halfkay_path: open, stream every block, then the boot
report unless no_reboot. -/
def flash_halfkay_path (oracle : FlashOracle) (path target_id : Str) :
    List OperationEvent × Except FlashError Unit :=
  if !oracle.open_ok path then ([], .error (.OpenHalfKay path))
  else
    let streamed := stream_blocks oracle path target_id oracle.blocks.length
      oracle.blocks.enum
    match streamed.2 with
    | .error e => (.HalfKayOpen target_id path :: streamed.1, .error e)
    | .ok () =>
      (.HalfKayOpen target_id path :: streamed.1
        ++ (if oracle.no_reboot then [] else [.Boot target_id])
        ++ [.Done target_id], .ok ())

/-- api.rs flash_one_target: HalfKay targets flash directly; Serial targets
soft-reboot, wait for the new HalfKay path, then flash it. -/
def flash_one_target (oracle : FlashOracle) (t : Target) (target_id : Str) :
    List OperationEvent × Except FlashError Unit :=
  match t with
  | .HalfKay hk => flash_halfkay_path oracle hk.path target_id
  | .Serial s =>
    match oracle.soft_reboot s.port_name with
    | .error e =>
      ([.SoftRebootSkipped target_id e], .error (.SoftRebootFailed s.port_name))
    | .ok () =>
      match oracle.wait_new with
      | .error e =>
        ([.SoftReboot target_id s.port_name], .error (.AmbiguousTarget e.msg))
      | .ok hk_path =>
        let flashed := flash_halfkay_path oracle hk_path target_id
        (.SoftReboot target_id s.port_name :: .HalfKayAppeared target_id hk_path
          :: flashed.1, flashed.2)

/-- The per-target loop of flash_teensy41_with_selection: emits TargetStart
and TargetDone around each target, counts failures, and in single-target
mode stops at the first error, which becomes fatal. -/
def flash_target_loop (oracle : FlashOracle) (multi : Bool) :
    List Target → List OperationEvent × Nat × Option FlashError
  | [] => ([], 0, none)
  | t :: ts =>
    let target_id := t.id
    let one := flash_one_target oracle t target_id
    match one.2 with
    | .ok () =>
      let rest := flash_target_loop oracle multi ts
      (.TargetStart target_id t.kind :: one.1
        ++ .TargetDone target_id true none :: rest.1, rest.2)
    | .error e =>
      if multi then
        let rest := flash_target_loop oracle multi ts
        (.TargetStart target_id t.kind :: one.1
          ++ .TargetDone target_id false (some e.msg) :: rest.1,
         rest.2.1 + 1, rest.2.2)
      else
        (.TargetStart target_id t.kind :: one.1
          ++ [.TargetDone target_id false (some e.msg)], 1, some e)

/-- The bridge resume block at the end of flash_teensy41_with_selection. -/
def resume_events (guard : Option BridgeGuard) : List OperationEvent :=
  match guard with
  | none => []
  | some g =>
    [.BridgeResumeStart,
     if g.resume_ok then .BridgeResumed
     else .BridgeResumeFailed ⟨"bridge resume failed".data, g.hint⟩]

/-- api.rs flash_teensy41_with_selection after the plan stage: the bridge
pause gate (when a Serial target is selected), the per-target loop, the
outcome precedence, and the bridge resume block.  The selected targets are
the plan result; collaborator outcomes come from the oracles. -/
def flash_run (selected : List Target) (bridge : BridgeControlOptions)
    (boracle : BridgeOracle) (oracle : FlashOracle) :
    List OperationEvent × Except FlashError Unit :=
  let needs_serial := selected.any fun t => t.kind = TargetKind.Serial
  let paused := if needs_serial then pause_oc_bridge bridge boracle
                else ⟨none, .Skipped .Disabled⟩
  let pauseEvents : List OperationEvent :=
    if needs_serial then
      [.BridgePauseStart,
       match paused.outcome with
       | .Paused info => .BridgePaused info
       | .Skipped reason => .BridgePauseSkipped reason
       | .Failed e => .BridgePauseFailed e]
    else []
  let bridge_guard := if needs_serial then paused.guard else none
  let total := selected.length
  let multi := 1 < total
  let looped := flash_target_loop oracle multi selected
  let result : Except FlashError Unit :=
    match looped.2.2 with
    | some e => .error e
    | none =>
      if 0 < looped.2.1 then .error (.MultiTargetFailed looped.2.1 total)
      else .ok ()
  (pauseEvents ++ looped.1 ++ resume_events bridge_guard, result)

-- ## halfkay.rs: report builders

/-- halfkay.rs build_block_report_teensy41.  The Rust version fills a zeroed
buffer of PACKET_SIZE + 1 bytes: byte 0 is the HID report id, the next three
bytes are the low, middle and high byte of the block address (cast to u32),
the rest of the 64-byte header stays zero, and the 1024 firmware bytes are
copied behind the header (the length is asserted in the source). -/
def build_block_report_teensy41 (block_addr : Nat) (data : List Nat) : List Nat :=
  let addr := block_addr % 2 ^ 32
  0 :: (addr % 256) :: (addr / 2 ^ 8 % 256) :: (addr / 2 ^ 16 % 256)
    :: (List.replicate (HEADER_SIZE - 3) 0 ++ data)

/-- halfkay.rs build_boot_report_teensy41: a zeroed report whose address
field is FF FF FF. -/
def build_boot_report_teensy41 : List Nat :=
  0 :: 0xFF :: 0xFF :: 0xFF :: List.replicate (PACKET_SIZE - 3) 0

-- ## operation_runner.rs: the generic runner

/-- operation_runner.rs RunTargetsErrors: the error adapters. -/
structure RunTargetsErrors (E : Type) where
  is_ambiguous : E → Bool
  make_ambiguous : Str → E
  make_multi_failed : Nat → Nat → E
  make_bridge_pause_failed : BridgeControlErrorInfo → E

/-- The per-target loop of run_targets_with_bridge: TargetStart and
TargetDone around each target, sticky first ambiguous message, failure
count, fatal stop in single-target mode. -/
def runner_loop (E : Type) (msg : E → Str) (errors : RunTargetsErrors E)
    (run_target : Target → Str → List OperationEvent × Except E Unit) (multi : Bool) :
    List Target → List OperationEvent × Nat × Option Str × Option E
  | [] => ([], 0, none, none)
  | t :: ts =>
    let target_id := t.id
    let one := run_target t target_id
    match one.2 with
    | .ok () =>
      let rest := runner_loop E msg errors run_target multi ts
      (.TargetStart target_id t.kind :: one.1
        ++ .TargetDone target_id true none :: rest.1, rest.2)
    | .error e =>
      if multi then
        let rest := runner_loop E msg errors run_target multi ts
        let amb := if errors.is_ambiguous e then some (msg e) else none
        (.TargetStart target_id t.kind :: one.1
          ++ .TargetDone target_id false (some (msg e)) :: rest.1,
         rest.2.1 + 1, (amb.or rest.2.2.1).or none, rest.2.2.2)
      else
        let amb := if errors.is_ambiguous e then some (msg e) else none
        (.TargetStart target_id t.kind :: one.1
          ++ [.TargetDone target_id false (some (msg e))], 1, amb, some e)

/-- operation_runner.rs run_targets_with_bridge: pause gate with the
safety-first abort on a Failed pause, the per-target loop, outcome
precedence fatal then ambiguous then multi-failed, and the resume block. -/
def run_targets_with_bridge (E : Type) (msg : E → Str) (selected : List Target)
    (bridge : BridgeControlOptions) (boracle : BridgeOracle)
    (run_target : Target → Str → List OperationEvent × Except E Unit)
    (errors : RunTargetsErrors E) :
    List OperationEvent × Except E Unit :=
  let total := selected.length
  let multi := 1 < total
  let needs_serial := selected.any fun t => t.kind = TargetKind.Serial
  let paused := if needs_serial then pause_oc_bridge bridge boracle
                else ⟨none, .Skipped .Disabled⟩
  if needs_serial then
    match paused.outcome with
    | .Failed e =>
      ([.BridgePauseStart, .BridgePauseFailed e],
       .error (errors.make_bridge_pause_failed e))
    | outcome =>
      let pauseEvents : List OperationEvent :=
        [.BridgePauseStart,
         match outcome with
         | .Paused info => .BridgePaused info
         | .Skipped reason => .BridgePauseSkipped reason
         | .Failed e => .BridgePauseFailed e]
      let looped := runner_loop E msg errors run_target multi selected
      let result : Except E Unit :=
        match looped.2.2.2 with
        | some e => .error e
        | none =>
          match looped.2.2.1 with
          | some m => .error (errors.make_ambiguous m)
          | none =>
            if 0 < looped.2.1 then .error (errors.make_multi_failed looped.2.1 total)
            else .ok ()
      (pauseEvents ++ looped.1 ++ resume_events paused.guard, result)
  else
    let looped := runner_loop E msg errors run_target multi selected
    let result : Except E Unit :=
      match looped.2.2.2 with
      | some e => .error e
      | none =>
        match looped.2.2.1 with
        | some m => .error (errors.make_ambiguous m)
        | none =>
          if 0 < looped.2.1 then .error (errors.make_multi_failed looped.2.1 total)
          else .ok ()
    (looped.1 ++ resume_events none, result)

-- ## small event predicates used by the run-level theorems

/-- The event is BridgePaused. -/
def isBridgePausedEv : OperationEvent → Bool
  | .BridgePaused _ => true
  | _ => false

/-- The event is BridgePauseFailed. -/
def isBridgePauseFailedEv : OperationEvent → Bool
  | .BridgePauseFailed _ => true
  | _ => false

/-- The event is BridgeResumed or BridgeResumeFailed. -/
def isResumeFinalEv : OperationEvent → Bool
  | .BridgeResumed => true
  | .BridgeResumeFailed _ => true
  | _ => false

/-- The event belongs to the bridge pause or resume lifecycle. -/
def isBridgeEv : OperationEvent → Bool
  | .BridgePauseStart => true
  | .BridgePaused _ => true
  | .BridgePauseSkipped _ => true
  | .BridgePauseFailed _ => true
  | .BridgeResumeStart => true
  | .BridgeResumed => true
  | .BridgeResumeFailed _ => true
  | _ => false

/-- The event is SoftReboot. -/
def isSoftRebootEv : OperationEvent → Bool
  | .SoftReboot _ _ => true
  | _ => false

/-- The event is HalfKayOpen. -/
def isHalfKayOpenEv : OperationEvent → Bool
  | .HalfKayOpen _ _ => true
  | _ => false

/-- The event is Block. -/
def isBlockEv : OperationEvent → Bool
  | .Block _ _ _ _ => true
  | _ => false

/-- Replace the modelled resume outcome of the bridge oracle. -/
def BridgeOracle.withResumeOk (o : BridgeOracle) (b : Bool) : BridgeOracle :=
  ⟨o.control_pause, o.service_status, o.stop_service, o.process_pause, b⟩


/-- The wait loop reaches poll k: every earlier poll listed successfully,
saw no new path, and was still inside the timeout. -/
def wait_reaches (before : List Str) (timeout : Nat)
    (polls : List (Except Unit (List Str) × Nat)) (k : Nat) : Prop :=
  ∀ j, j < k → ∃ now elapsed, polls.get? j = some (.ok now, elapsed) ∧
    newOf before now = [] ∧ elapsed < timeout

-- ## Theorems

/-- C5: for every block start address and 1024-byte data slice, the block
report has 1089 bytes, byte 0 is the zero report id, bytes 1..4 are the
little-endian 24-bit block start address, bytes 4..65 are all zero and
bytes 65..1089 are the firmware bytes; the boot report has 1089 bytes,
byte 0 zero, bytes 1..4 equal to FF FF FF and bytes 4..1089 all zero. -/
theorem halfkay_report_envelope (block_addr : Nat) (data : List Nat)
    (hlen : data.length = BLOCK_SIZE) (haddr : block_addr < 2 ^ 24) :
    ((build_block_report_teensy41 block_addr data).length = 1089 ∧
     (build_block_report_teensy41 block_addr data).getD 0 255 = 0 ∧
     ((build_block_report_teensy41 block_addr data).drop 1).take 3 =
       [block_addr % 256, block_addr / 2 ^ 8 % 256, block_addr / 2 ^ 16 % 256] ∧
     ((build_block_report_teensy41 block_addr data).drop 4).take 61 =
       List.replicate 61 0 ∧
     (build_block_report_teensy41 block_addr data).drop 65 = data) ∧
    (build_boot_report_teensy41.length = 1089 ∧
     build_boot_report_teensy41.getD 0 255 = 0 ∧
     (build_boot_report_teensy41.drop 1).take 3 = [255, 255, 255] ∧
     build_boot_report_teensy41.drop 4 = List.replicate 1085 0) := by
  have hmod : block_addr % 2 ^ 32 = block_addr :=
    Nat.mod_eq_of_lt (lt_trans haddr (by norm_num))
  have hr : build_block_report_teensy41 block_addr data =
      (0 :: (block_addr % 256) :: (block_addr / 2 ^ 8 % 256)
        :: (block_addr / 2 ^ 16 % 256) :: List.replicate (HEADER_SIZE - 3) 0) ++ data := by
    simp only [build_block_report_teensy41]
    rw [hmod]
    simp
  constructor
  · refine ⟨?_, ?_, ?_, ?_, ?_⟩
    · rw [hr]
      simp [HEADER_SIZE, hlen, BLOCK_SIZE]
    · rw [hr]; rfl
    · rw [hr]; rfl
    · rw [hr]
      have : ((0 :: (block_addr % 256) :: (block_addr / 2 ^ 8 % 256)
          :: (block_addr / 2 ^ 16 % 256) :: List.replicate (HEADER_SIZE - 3) 0) ++ data) =
          ([0, block_addr % 256, block_addr / 2 ^ 8 % 256, block_addr / 2 ^ 16 % 256]
            ++ (List.replicate (HEADER_SIZE - 3) 0 ++ data)) := by simp
      rw [this]
      rw [show (4 : Nat) =
        ([0, block_addr % 256, block_addr / 2 ^ 8 % 256, block_addr / 2 ^ 16 % 256]).length
        from rfl]
      rw [List.drop_left]
      rw [List.take_left' (by simp [HEADER_SIZE])]
      norm_num [HEADER_SIZE]
    · rw [hr]
      rw [List.drop_left' (by simp [HEADER_SIZE])]
  · refine ⟨?_, rfl, rfl, ?_⟩
    · rw [build_boot_report_teensy41]
      simp only [List.length_cons, List.length_replicate]
      norm_num [PACKET_SIZE, HEADER_SIZE, BLOCK_SIZE]
    · show (0 :: 255 :: 255 :: 255 :: List.replicate (PACKET_SIZE - 3) 0).drop 4 =
        List.replicate 1085 0
      rw [show (0 :: 255 :: 255 :: 255 :: List.replicate (PACKET_SIZE - 3) 0).drop 4 =
        List.replicate (PACKET_SIZE - 3) 0 from rfl]
      norm_num [PACKET_SIZE, HEADER_SIZE, BLOCK_SIZE]

/-- Witness for the report-envelope theorem at block address 0x123400 and a
constant 1024-byte block. -/
theorem halfkay_report_envelope_witness :
    (List.replicate BLOCK_SIZE 0xAA).length = BLOCK_SIZE ∧ 0x123400 < 2 ^ 24 ∧
    ((build_block_report_teensy41 0x123400 (List.replicate BLOCK_SIZE 0xAA)).drop 1).take 3 =
      [0x00, 0x34, 0x12] :=
  ⟨by simp, by norm_num,
   ((halfkay_report_envelope 0x123400 (List.replicate BLOCK_SIZE 0xAA)
      (by simp) (by norm_num)).1.2.2.1).trans (by norm_num)⟩

/-- The result component of select_targets is the core selection when the
target list is non-empty. -/
theorem select_targets_snd (selection : FlashSelection) (port : Option Str)
    (targets : List Target) (emit : Bool) (h : targets ≠ []) :
    (select_targets selection port targets emit).2 =
      select_targets_core selection port targets := by
  unfold select_targets
  rw [if_neg h]
  cases select_targets_core selection port targets with
  | error e => rfl
  | ok sel =>
    dsimp only
    split
    · rfl
    · rfl

/-- C10: with a non-empty target list and an explicit Device selector, every
select_targets failure is the AmbiguousTarget variant, which classifies to
the AmbiguousTarget error kind; NoTargets is never produced. -/
theorem select_targets_device_errors_are_ambiguous (s : Str) (port : Option Str)
    (targets : List Target) (emit : Bool) (h : targets ≠ []) :
    (∃ l, (select_targets (.Device s) port targets emit).2 = .ok l) ∨
    (∃ m, (select_targets (.Device s) port targets emit).2 =
            .error (.AmbiguousTarget m) ∧
          (FlashError.AmbiguousTarget m).kind = .AmbiguousTarget) := by
  rw [select_targets_snd _ _ _ _ h]
  cases hp : parse_selector s with
  | error e =>
    right
    exact ⟨e.msg, by simp [select_targets_core, hp], rfl⟩
  | ok parsed =>
    cases hr : resolve_one parsed targets with
    | error e =>
      right
      exact ⟨e.msg, by simp [select_targets_core, hp, hr], rfl⟩
    | ok idx =>
      left
      exact ⟨[targets.getD idx (Target.HalfKay ⟨0, 0, []⟩)],
        by simp [select_targets_core, hp, hr]⟩

/-- Witness for the Device-selector theorem: a selector matching nothing in a
one-element list still yields an AmbiguousTarget error, not NoTargets. -/
theorem select_targets_device_errors_witness :
    ([Target.Serial ⟨"COM6".data, 0x16C0, 0x0489, none, none, none⟩] ≠ ([] : List Target)) ∧
    ((∃ l, (select_targets (.Device "nope".data) none
        [Target.Serial ⟨"COM6".data, 0x16C0, 0x0489, none, none, none⟩] true).2 = .ok l) ∨
     (∃ m, (select_targets (.Device "nope".data) none
        [Target.Serial ⟨"COM6".data, 0x16C0, 0x0489, none, none, none⟩] true).2 =
          .error (.AmbiguousTarget m) ∧
        (FlashError.AmbiguousTarget m).kind = .AmbiguousTarget)) :=
  ⟨by decide,
   select_targets_device_errors_are_ambiguous "nope".data none
     [Target.Serial ⟨"COM6".data, 0x16C0, 0x0489, none, none, none⟩] true (by decide)⟩

/-- C3 counterexample: under Auto with no HalfKay target, a serial-port
preference that matches nothing makes selection fail NoTargets, even though
exactly one target is present; the claim instead demands that single target
be selected (or at worst an Ambiguous failure). -/
theorem select_auto_pref_counterexample :
    (select_targets .Auto (some "COM6".data)
      [Target.Serial ⟨"COM5".data, 0x16C0, 0x0489, none, none, none⟩] true).2 =
      .error .NoTargets ∧
    (select_targets .Auto (some "COM6".data)
      [Target.Serial ⟨"COM5".data, 0x16C0, 0x0489, none, none, none⟩] true).2 ≠
      .ok [Target.Serial ⟨"COM5".data, 0x16C0, 0x0489, none, none, none⟩] ∧
    (∀ m, (select_targets .Auto (some "COM6".data)
      [Target.Serial ⟨"COM5".data, 0x16C0, 0x0489, none, none, none⟩] true).2 ≠
      .error (.AmbiguousTarget m)) := by
  have h : (select_targets .Auto (some "COM6".data)
      [Target.Serial ⟨"COM5".data, 0x16C0, 0x0489, none, none, none⟩] true).2 =
      .error .NoTargets := by rfl
  refine ⟨h, ?_, ?_⟩
  · rw [h]; intro hc; cases hc
  · intro m
    rw [h]
    intro hc
    cases hc

/-- C3 amended: under Auto with a non-empty target list, exactly one HalfKay
target wins even among Serial targets; several HalfKay targets fail
Ambiguous; with no HalfKay a supplied serial-port preference takes
precedence: its unique match is selected, no match fails NoTargets and
several matches fail Ambiguous; with no HalfKay and no preference a single
total target is selected and several fail Ambiguous. -/
theorem select_targets_auto_cases (targets : List Target) (port : Option Str)
    (emit : Bool) (h : targets ≠ []) :
    (∀ t, targets.filter (fun t => t.kind = TargetKind.HalfKay) = [t] →
      (select_targets .Auto port targets emit).2 = .ok [t]) ∧
    (1 < (targets.filter (fun t => t.kind = TargetKind.HalfKay)).length →
      ∃ m, (select_targets .Auto port targets emit).2 = .error (.AmbiguousTarget m)) ∧
    (∀ p, targets.filter (fun t => t.kind = TargetKind.HalfKay) = [] → port = some p →
      (∀ t, ((targets.filter fun t => t.kind = TargetKind.Serial).filter fun t =>
          match t with
          | .Serial s => s.port_name = p
          | _ => false) = [t] →
        (select_targets .Auto port targets emit).2 = .ok [t]) ∧
      (((targets.filter fun t => t.kind = TargetKind.Serial).filter fun t =>
          match t with
          | .Serial s => s.port_name = p
          | _ => false) = [] →
        (select_targets .Auto port targets emit).2 = .error .NoTargets) ∧
      (1 < ((targets.filter fun t => t.kind = TargetKind.Serial).filter fun t =>
          match t with
          | .Serial s => s.port_name = p
          | _ => false).length →
        ∃ m, (select_targets .Auto port targets emit).2 = .error (.AmbiguousTarget m))) ∧
    (∀ t, targets.filter (fun t => t.kind = TargetKind.HalfKay) = [] → port = none →
      targets = [t] → (select_targets .Auto port targets emit).2 = .ok [t]) ∧
    (targets.filter (fun t => t.kind = TargetKind.HalfKay) = [] → port = none →
      1 < targets.length →
      ∃ m, (select_targets .Auto port targets emit).2 = .error (.AmbiguousTarget m)) := by
  rw [select_targets_snd _ _ _ _ h]
  refine ⟨?_, ?_, ?_, ?_, ?_⟩
  · intro t ht
    simp [select_targets_core, ht]
  · intro hlen
    refine ⟨"multiple HalfKay devices detected".data, ?_⟩
    have hne : targets.filter (fun t => t.kind = TargetKind.HalfKay) ≠ [] := by
      intro hc
      rw [hc] at hlen
      simp at hlen
    have hlen1 : (targets.filter (fun t => t.kind = TargetKind.HalfKay)).length ≠ 1 := by
      omega
    simp [select_targets_core, hlen1, hne]
  · intro p hhk hport
    subst hport
    refine ⟨?_, ?_, ?_⟩
    · intro t ht
      simp [select_targets_core, hhk, ht]
    · intro ht
      simp [select_targets_core, hhk, ht]
    · intro hlen
      refine ⟨"multiple targets matched preferred serial port".data, ?_⟩
      have hne : ¬(((targets.filter fun t => t.kind = TargetKind.Serial).filter fun t =>
          match t with
          | .Serial s => s.port_name = p
          | _ => false) = []) := by
        intro hc
        rw [hc] at hlen
        simp at hlen
      have hlen1 : ¬(((targets.filter fun t => t.kind = TargetKind.Serial).filter fun t =>
          match t with
          | .Serial s => s.port_name = p
          | _ => false).length = 1) := by omega
      have hk_len : ¬((targets.filter fun t => t.kind = TargetKind.HalfKay).length = 1) := by
        rw [hhk]
        simp
      dsimp only [select_targets_core]
      rw [if_neg hk_len, if_neg (by simp [hhk]), if_neg hlen1, if_neg hne]
  · intro t hhk hport ht
    subst hport
    subst ht
    simp [select_targets_core, hhk]
  · intro hhk hport hlen
    subst hport
    refine ⟨"multiple targets detected".data, ?_⟩
    have hlen1 : targets.length ≠ 1 := by omega
    simp [select_targets_core, hhk, hlen1]

/-- Witness for the amended Auto-selection theorem: one HalfKay among two
Serial targets is selected. -/
theorem select_targets_auto_cases_witness :
    ([Target.Serial ⟨"COM5".data, 0x16C0, 0x0489, none, none, none⟩,
      Target.HalfKay ⟨0x16C0, 0x0478, "HK1".data⟩,
      Target.Serial ⟨"COM6".data, 0x16C0, 0x0489, none, none, none⟩] ≠ ([] : List Target)) ∧
    (select_targets .Auto none
      [Target.Serial ⟨"COM5".data, 0x16C0, 0x0489, none, none, none⟩,
       Target.HalfKay ⟨0x16C0, 0x0478, "HK1".data⟩,
       Target.Serial ⟨"COM6".data, 0x16C0, 0x0489, none, none, none⟩] true).2 =
      .ok [Target.HalfKay ⟨0x16C0, 0x0478, "HK1".data⟩] :=
  ⟨by decide,
   (select_targets_auto_cases
      [Target.Serial ⟨"COM5".data, 0x16C0, 0x0489, none, none, none⟩,
       Target.HalfKay ⟨0x16C0, 0x0478, "HK1".data⟩,
       Target.Serial ⟨"COM6".data, 0x16C0, 0x0489, none, none, none⟩] none true
      (by decide)).1 (Target.HalfKay ⟨0x16C0, 0x0478, "HK1".data⟩) (by decide)⟩

/-- Parsing a string that carries a serial: or halfkay: tag and survives
trimming yields the literal Id selector. -/
theorem parse_selector_of_tagged (s : Str)
    (htrim : trimChars s = s)
    (hne : s ≠ [])
    (hidx : "index:".data.isPrefixOf s = false)
    (hser : ("serial:".data.isPrefixOf s || "halfkay:".data.isPrefixOf s) = true) :
    parse_selector s = .ok (.Id s) := by
  unfold parse_selector
  rw [htrim, if_neg hne, if_neg (by simp [hidx]), if_pos hser]

/-- The Id-matching filterMap of resolve returns exactly the position of a
target whose identifier is unique in the list. -/
theorem resolve_filterMap_unique (t : Target) :
    ∀ (targets : List Target) (j k : Nat),
    targets.get? j = some t →
    (targets.map Target.id).Nodup →
    ((targets.enumFrom k).filterMap fun p =>
      if (p.2).id = t.id then some p.1 else none) = [k + j] := by
  intro targets
  induction targets with
  | nil => intro j k hj; simp at hj
  | cons a ts ih =>
    intro j k hj hnodup
    rw [List.map_cons, List.nodup_cons] at hnodup
    cases j with
    | zero =>
      rw [List.get?_cons_zero] at hj
      injection hj with hj
      subst hj
      rw [List.enumFrom_cons]
      rw [List.filterMap_cons]
      rw [if_pos rfl]
      have htail : ((ts.enumFrom (k + 1)).filterMap fun p =>
          if (p.2).id = a.id then some p.1 else none) = [] := by
        rw [List.filterMap_eq_nil_iff]
        intro p hp
        have hmem : p.2 ∈ ts := by
          have := List.mem_map_of_mem Prod.snd hp
          rwa [List.enumFrom_map_snd] at this
        rw [if_neg]
        intro hc
        exact hnodup.1 (hc ▸ List.mem_map_of_mem Target.id hmem)
      rw [htail]
      simp
    | succ j =>
      rw [List.get?_cons_succ] at hj
      have hmem : t ∈ ts := List.get?_mem hj
      rw [List.enumFrom_cons]
      rw [List.filterMap_cons]
      rw [if_neg]
      · have := ih j (k + 1) hj hnodup.2
        rw [this, show k + 1 + j = k + (j + 1) from by omega]
      · intro hc
        exact hnodup.1 (hc ▸ List.mem_map_of_mem Target.id hmem)

/-- C9: for every target in a duplicate-free discovery list whose identifier
survives trimming (operating-system paths and port names carry no
surrounding whitespace), parsing the identifier and resolving it against
the list yields exactly the index of that target, with no error. -/
theorem selector_roundtrip (targets : List Target) (j : Nat) (t : Target)
    (hj : targets.get? j = some t)
    (htrim : trimChars t.id = t.id)
    (hnodup : (targets.map Target.id).Nodup) :
    parse_selector t.id = .ok (.Id t.id) ∧
    resolve_one (.Id t.id) targets = .ok j := by
  constructor
  · apply parse_selector_of_tagged _ htrim
    · cases t with
      | HalfKay hk =>
        show ("halfkay:".data ++ hk.path : Str) ≠ []
        rw [show ("halfkay:".data : Str) = 'h' :: "alfkay:".data from rfl,
          List.cons_append]
        simp
      | Serial sr =>
        show ("serial:".data ++ sr.port_name : Str) ≠ []
        rw [show ("serial:".data : Str) = 's' :: "erial:".data from rfl,
          List.cons_append]
        simp
    · cases t with
      | HalfKay hk =>
        show ("index:".data.isPrefixOf ("halfkay:".data ++ hk.path)) = false
        rw [show ("index:".data : Str) = 'i' :: "ndex:".data from rfl,
          show ("halfkay:".data : Str) = 'h' :: "alfkay:".data from rfl,
          List.cons_append]
        simp [List.isPrefixOf]
      | Serial sr =>
        show ("index:".data.isPrefixOf ("serial:".data ++ sr.port_name)) = false
        rw [show ("index:".data : Str) = 'i' :: "ndex:".data from rfl,
          show ("serial:".data : Str) = 's' :: "erial:".data from rfl,
          List.cons_append]
        simp [List.isPrefixOf]
    · cases t with
      | HalfKay hk =>
        show ("serial:".data.isPrefixOf ("halfkay:".data ++ hk.path) ||
          "halfkay:".data.isPrefixOf ("halfkay:".data ++ hk.path)) = true
        have : "halfkay:".data.isPrefixOf ("halfkay:".data ++ hk.path) = true := by
          rw [List.isPrefixOf_iff_prefix]
          exact List.prefix_append _ _
        rw [this, Bool.or_true]
      | Serial sr =>
        show ("serial:".data.isPrefixOf ("serial:".data ++ sr.port_name) ||
          "halfkay:".data.isPrefixOf ("serial:".data ++ sr.port_name)) = true
        have : "serial:".data.isPrefixOf ("serial:".data ++ sr.port_name) = true := by
          rw [List.isPrefixOf_iff_prefix]
          exact List.prefix_append _ _
        rw [this, Bool.true_or]
  · have hm := resolve_filterMap_unique t targets j 0 hj hnodup
    simp only [resolve_one, resolve]
    rw [show targets.enum = targets.enumFrom 0 from rfl, hm]
    simp

/-- Witness for the selector round-trip theorem on a two-target discovery
list. -/
theorem selector_roundtrip_witness :
    ([Target.HalfKay ⟨0x16C0, 0x0478, "HK1".data⟩,
      Target.Serial ⟨"COM6".data, 0x16C0, 0x0489, none, none, none⟩].get? 1 =
      some (Target.Serial ⟨"COM6".data, 0x16C0, 0x0489, none, none, none⟩)) ∧
    (resolve_one (.Id (Target.Serial
        ⟨"COM6".data, 0x16C0, 0x0489, none, none, none⟩).id)
      [Target.HalfKay ⟨0x16C0, 0x0478, "HK1".data⟩,
       Target.Serial ⟨"COM6".data, 0x16C0, 0x0489, none, none, none⟩] = .ok 1) :=
  ⟨by decide,
   (selector_roundtrip
      [Target.HalfKay ⟨0x16C0, 0x0478, "HK1".data⟩,
       Target.Serial ⟨"COM6".data, 0x16C0, 0x0489, none, none, none⟩] 1
      (Target.Serial ⟨"COM6".data, 0x16C0, 0x0489, none, none, none⟩)
      (by decide) (by decide) (by decide)).2⟩

/-- Insertion keeps the list a permutation of pushing the element in front. -/
theorem insertSorted_perm (x : Str) (l : List Str) :
    (insertSorted x l).Perm (x :: l) := by
  induction l with
  | nil => simp [insertSorted]
  | cons y ys ih =>
    rw [insertSorted]
    split
    · exact List.Perm.refl _
    · exact (List.Perm.cons y ih).trans (List.Perm.swap x y ys)

/-- The sort used by diff_new_halfkay permutes its input. -/
theorem sortStrings_perm (l : List Str) : (sortStrings l).Perm l := by
  induction l with
  | nil => simp [sortStrings]
  | cons y ys ih =>
    rw [sortStrings, List.foldr_cons]
    exact (insertSorted_perm y (ys.foldr insertSorted [])).trans (List.Perm.cons y ih)

/-- The diff of a singleton new set succeeds with its element. -/
theorem diff_of_single (before now : List Str) (p : Str)
    (h : newOf before now = [p]) :
    diff_new_halfkay before now = .ok (some p) := by
  unfold diff_new_halfkay
  rw [h]
  rfl

/-- The diff of an empty new set yields none. -/
theorem diff_of_nil (before now : List Str) (h : newOf before now = []) :
    diff_new_halfkay before now = .ok none := by
  unfold diff_new_halfkay
  rw [h]
  rfl

/-- The diff of two or more new paths fails Ambiguous with their count. -/
theorem diff_of_many (before now : List Str) (h : 1 < (newOf before now).length) :
    diff_new_halfkay before now = .error (.Ambiguous (newOf before now).length) := by
  unfold diff_new_halfkay
  have hlen : (sortStrings (newOf before now)).length = (newOf before now).length :=
    (sortStrings_perm _).length_eq
  rw [if_neg (by omega), if_pos (by omega), hlen]

/-- A successful diff pins the new set to the returned singleton. -/
theorem diff_ok_some (before now : List Str) (p : Str)
    (h : diff_new_halfkay before now = .ok (some p)) :
    newOf before now = [p] := by
  unfold diff_new_halfkay at h
  have hlen : (sortStrings (newOf before now)).length = (newOf before now).length :=
    (sortStrings_perm _).length_eq
  by_cases h1 : (sortStrings (newOf before now)).length = 1
  · rw [if_pos h1] at h
    injection h with h
    have hs : sortStrings (newOf before now) = [p] := by
      cases hsort : sortStrings (newOf before now) with
      | nil => rw [hsort] at h1; simp at h1
      | cons a rest =>
        rw [hsort] at h1 h
        simp at h1 h
        rw [h1, h]
    exact List.perm_singleton.mp (hs ▸ (sortStrings_perm (newOf before now)).symm)
  · rw [if_neg h1] at h
    split at h
    · cases h
    · cases h

/-- Shifting the reaches predicate across the head poll. -/
theorem wait_reaches_cons (before : List Str) (timeout : Nat)
    (hd : Except Unit (List Str) × Nat) (rest : List (Except Unit (List Str) × Nat))
    (k : Nat) :
    wait_reaches before timeout (hd :: rest) (k + 1) ↔
    ((∃ now elapsed, hd = (.ok now, elapsed) ∧ newOf before now = [] ∧
        elapsed < timeout) ∧ wait_reaches before timeout rest k) := by
  constructor
  · intro h
    constructor
    · obtain ⟨now, el, hg, hn, hlt⟩ := h 0 (Nat.succ_pos k)
      rw [List.get?_cons_zero] at hg
      injection hg with hg
      exact ⟨now, el, hg, hn, hlt⟩
    · intro j hj
      obtain ⟨now, el, hg, hn, hlt⟩ := h (j + 1) (by omega)
      rw [List.get?_cons_succ] at hg
      exact ⟨now, el, hg, hn, hlt⟩
  · rintro ⟨⟨now, el, hhd, hn, hlt⟩, hrest⟩ j hj
    cases j with
    | zero =>
      exact ⟨now, el, by rw [List.get?_cons_zero, hhd], hn, hlt⟩
    | succ i =>
      obtain ⟨now2, el2, hg, hn2, hlt2⟩ := hrest i (by omega)
      exact ⟨now2, el2, by rw [List.get?_cons_succ]; exact hg, hn2, hlt2⟩

/-- The wait loop succeeds exactly when a reached poll sees exactly one new
path, and it returns that path. -/
theorem wait_ok_iff (before : List Str) (timeout : Nat) :
    ∀ (polls : List (Except Unit (List Str) × Nat)) (p : Str),
    wait_for_new_halfkay before timeout polls = some (.ok p) ↔
    ∃ k now elapsed, wait_reaches before timeout polls k ∧
      polls.get? k = some (.ok now, elapsed) ∧ newOf before now = [p] := by
  intro polls
  induction polls with
  | nil =>
    intro p
    constructor
    · intro h
      simp [wait_for_new_halfkay] at h
    · rintro ⟨k, now, el, _, hg, _⟩
      simp at hg
  | cons hd rest ih =>
    rcases hd with ⟨obs, e⟩
    cases obs with
    | error u =>
      intro p
      constructor
      · intro h
        simp [wait_for_new_halfkay] at h
      · rintro ⟨k, now, el, hr, hg, hn⟩
        cases k with
        | zero => simp at hg
        | succ j =>
          obtain ⟨now0, e0, hg0, _, _⟩ := hr 0 (Nat.succ_pos j)
          simp at hg0
    | ok now0 =>
      intro p
      cases hnew : newOf before now0 with
      | nil =>
        have hd0 := diff_of_nil before now0 hnew
        by_cases ht : timeout ≤ e
        · constructor
          · intro h
            simp only [wait_for_new_halfkay, hd0, if_pos ht] at h
            cases h
          · rintro ⟨k, now, el, hr, hg, hn⟩
            cases k with
            | zero =>
              rw [List.get?_cons_zero] at hg
              injection hg with hg
              injection hg with hg1 hg2
              injection hg1 with hg1
              rw [← hg1, hnew] at hn
              cases hn
            | succ j =>
              obtain ⟨now1, e1, hg1, hn1, hlt1⟩ := hr 0 (Nat.succ_pos j)
              rw [List.get?_cons_zero] at hg1
              injection hg1 with hg1
              injection hg1 with hg1a hg1b
              omega
        · constructor
          · intro h
            simp only [wait_for_new_halfkay, hd0, if_neg ht] at h
            obtain ⟨k, now, el, hr, hg, hn⟩ := (ih p).mp h
            exact ⟨k + 1, now, el,
              (wait_reaches_cons before timeout (.ok now0, e) rest k).mpr
                ⟨⟨now0, e, rfl, hnew, by omega⟩, hr⟩,
              by rw [List.get?_cons_succ]; exact hg, hn⟩
          · rintro ⟨k, now, el, hr, hg, hn⟩
            cases k with
            | zero =>
              rw [List.get?_cons_zero] at hg
              injection hg with hg
              injection hg with hg1 hg2
              injection hg1 with hg1
              rw [← hg1, hnew] at hn
              cases hn
            | succ j =>
              have hshift := (wait_reaches_cons before timeout (.ok now0, e) rest j).mp hr
              rw [List.get?_cons_succ] at hg
              simp only [wait_for_new_halfkay, hd0, if_neg ht]
              exact (ih p).mpr ⟨j, now, el, hshift.2, hg, hn⟩
      | cons q qs =>
        cases qs with
        | nil =>
          have hd0 := diff_of_single before now0 q hnew
          constructor
          · intro h
            simp only [wait_for_new_halfkay, hd0] at h
            injection h with h
            injection h with h
            exact ⟨0, now0, e, fun j hj => absurd hj (by omega),
              by rw [List.get?_cons_zero], by rw [hnew, h]⟩
          · rintro ⟨k, now, el, hr, hg, hn⟩
            cases k with
            | zero =>
              rw [List.get?_cons_zero] at hg
              injection hg with hg
              injection hg with hg1 hg2
              injection hg1 with hg1
              rw [← hg1, hnew] at hn
              injection hn with hn1 hn2
              simp only [wait_for_new_halfkay, hd0]
              rw [hn1]
            | succ j =>
              obtain ⟨now1, e1, hg1, hn1, hlt1⟩ := hr 0 (Nat.succ_pos j)
              rw [List.get?_cons_zero] at hg1
              injection hg1 with hg1
              injection hg1 with hg1a hg1b
              injection hg1a with hg1a
              rw [← hg1a, hnew] at hn1
              cases hn1
        | cons r rs =>
          have hd0 := diff_of_many before now0 (by rw [hnew]; simp)
          constructor
          · intro h
            simp only [wait_for_new_halfkay, hd0] at h
            cases h
          · rintro ⟨k, now, el, hr, hg, hn⟩
            cases k with
            | zero =>
              rw [List.get?_cons_zero] at hg
              injection hg with hg
              injection hg with hg1 hg2
              injection hg1 with hg1
              rw [← hg1, hnew] at hn
              injection hn with hn1 hn2
              cases hn2
            | succ j =>
              obtain ⟨now1, e1, hg1, hn1, hlt1⟩ := hr 0 (Nat.succ_pos j)
              rw [List.get?_cons_zero] at hg1
              injection hg1 with hg1
              injection hg1 with hg1a hg1b
              injection hg1a with hg1a
              rw [← hg1a, hnew] at hn1
              cases hn1

/-- At a reached poll, two or more new paths abort the wait with Ambiguous,
and an empty diff at or past the timeout aborts it with Timeout. -/
theorem wait_error_at (before : List Str) (timeout : Nat) :
    ∀ (k : Nat) (polls : List (Except Unit (List Str) × Nat))
      (now : List Str) (elapsed : Nat),
    wait_reaches before timeout polls k →
    polls.get? k = some (.ok now, elapsed) →
    ((1 < (newOf before now).length →
      wait_for_new_halfkay before timeout polls =
        some (.error (.Ambiguous (newOf before now).length))) ∧
     (newOf before now = [] → timeout ≤ elapsed →
      wait_for_new_halfkay before timeout polls = some (.error .Timeout))) := by
  intro k
  induction k with
  | zero =>
    intro polls now elapsed _ hg
    cases polls with
    | nil => simp at hg
    | cons hd rest =>
      rw [List.get?_cons_zero] at hg
      injection hg with hg
      subst hg
      constructor
      · intro hlen
        simp only [wait_for_new_halfkay, diff_of_many before now hlen]
      · intro hnil ht
        simp only [wait_for_new_halfkay, diff_of_nil before now hnil, if_pos ht]
  | succ k ih =>
    intro polls now elapsed hr hg
    cases polls with
    | nil => simp at hg
    | cons hd rest =>
      have hshift := (wait_reaches_cons before timeout hd rest k).mp hr
      obtain ⟨⟨now0, e0, hhd, hn0, hlt0⟩, hrest⟩ := hshift
      subst hhd
      rw [List.get?_cons_succ] at hg
      have := ih rest now elapsed hrest hg
      constructor
      · intro hlen
        simp only [wait_for_new_halfkay, diff_of_nil before now0 hn0,
          if_neg (by omega : ¬ timeout ≤ e0)]
        exact this.1 hlen
      · intro hnil ht
        simp only [wait_for_new_halfkay, diff_of_nil before now0 hn0,
          if_neg (by omega : ¬ timeout ≤ e0)]
        exact this.2 hnil ht

/-- C4: the wait returns a path exactly when a reached poll observes a set
of current paths whose difference with the snapshot has exactly one
element, and it returns that element; a reached poll observing two or more
new paths fails Ambiguous with their count; a reached poll observing none
past the timeout fails Timeout. -/
theorem wait_for_new_halfkay_spec (before : List Str) (timeout : Nat)
    (polls : List (Except Unit (List Str) × Nat)) :
    (∀ p, wait_for_new_halfkay before timeout polls = some (.ok p) ↔
      ∃ k now elapsed, wait_reaches before timeout polls k ∧
        polls.get? k = some (.ok now, elapsed) ∧ newOf before now = [p]) ∧
    (∀ k now elapsed, wait_reaches before timeout polls k →
      polls.get? k = some (.ok now, elapsed) →
      1 < (newOf before now).length →
      wait_for_new_halfkay before timeout polls =
        some (.error (.Ambiguous (newOf before now).length))) ∧
    (∀ k now elapsed, wait_reaches before timeout polls k →
      polls.get? k = some (.ok now, elapsed) →
      newOf before now = [] → timeout < elapsed →
      wait_for_new_halfkay before timeout polls = some (.error .Timeout)) :=
  ⟨fun p => wait_ok_iff before timeout polls p,
   fun k now elapsed hr hg hlen => (wait_error_at before timeout k polls now elapsed hr hg).1 hlen,
   fun k now elapsed hr hg hnil ht =>
     (wait_error_at before timeout k polls now elapsed hr hg).2 hnil (by omega)⟩

/-- Witness for the wait theorem: with snapshot A and one poll observing A
and B, the wait returns B. -/
theorem wait_for_new_halfkay_spec_witness :
    wait_for_new_halfkay ["A".data] 1000 [(.ok ["A".data, "B".data], 0)] =
      some (.ok "B".data) :=
  ((wait_for_new_halfkay_spec ["A".data] 1000 [(.ok ["A".data, "B".data], 0)]).1
    "B".data).mpr
    ⟨0, ["A".data, "B".data], 0, fun j hj => absurd hj (by omega),
     by rw [List.get?_cons_zero], by decide⟩

/-- C6: an extended linear address record whose value lies in the FlexSPI
window is normalized by subtracting the base; a value outside the window is
kept unchanged; a data record whose absolute address is out of the firmware
range fails AddressOutOfRange, and AddressOverflow when the 32-bit address
arithmetic overflows. -/
theorem hex_address_mapping :
    (∀ (st : ParseState) (line_no addr h1 h2 : Nat),
      FLEXSPI_BASE ≤ (h1 * 256 + h2) * 65536 →
      (h1 * 256 + h2) * 65536 < FLEXSPI_BASE + CODE_SIZE →
      apply_record st line_no 2 addr 4 [h1, h2] =
        .ok (.cont ⟨st.data, st.mask, st.byte_count,
          (h1 * 256 + h2) * 65536 - FLEXSPI_BASE⟩)) ∧
    (∀ (st : ParseState) (line_no addr h1 h2 : Nat),
      ¬(FLEXSPI_BASE ≤ (h1 * 256 + h2) * 65536 ∧
        (h1 * 256 + h2) * 65536 < FLEXSPI_BASE + CODE_SIZE) →
      apply_record st line_no 2 addr 4 [h1, h2] =
        .ok (.cont ⟨st.data, st.mask, st.byte_count, (h1 * 256 + h2) * 65536⟩)) ∧
    (∀ (st : ParseState) (line_no len addr b : Nat) (rest : List Nat),
      st.ext_addr + addr < 2 ^ 32 → CODE_SIZE ≤ st.ext_addr + addr →
      apply_record st line_no len addr 0 (b :: rest) =
        .error (.AddressOutOfRange line_no (st.ext_addr + addr))) ∧
    (∀ (st : ParseState) (line_no len addr b : Nat) (rest : List Nat),
      2 ^ 32 ≤ st.ext_addr + addr →
      apply_record st line_no len addr 0 (b :: rest) =
        .error (.AddressOverflow line_no)) := by
  refine ⟨?_, ?_, ?_, ?_⟩
  · intro st line_no addr h1 h2 hlo hhi
    simp only [apply_record]
    norm_num
    intro h
    exact absurd (h hlo) (by omega)
  · intro st line_no addr h1 h2 hout
    simp only [apply_record]
    norm_num
    intro ha hb
    exact absurd ⟨ha, hb⟩ hout
  · intro st line_no len addr b rest hlt hge
    simp only [apply_record, write_bytes, map_teensy41_addr]
    norm_num
    rw [if_neg (by omega : ¬ (4294967296 : Nat) ≤ st.ext_addr + addr)]
    rw [if_neg (by omega : ¬ st.ext_addr + addr < CODE_SIZE)]
  · intro st line_no len addr b rest hge
    simp only [apply_record, write_bytes, map_teensy41_addr]
    norm_num
    rw [if_pos (by omega : (4294967296 : Nat) ≤ st.ext_addr + addr)]

/-- Witness for the address-mapping theorem: extended linear value 0x6000
maps to zero, and a data byte at ext_addr 0x607C0000 is out of range. -/
theorem hex_address_mapping_witness :
    apply_record ⟨[], [], 0, 0⟩ 1 2 0 4 [0x60, 0x00] =
      .ok (.cont ⟨[], [], 0, 0⟩) ∧
    apply_record ⟨[], [], 0, 0x607C0000⟩ 2 1 0 0 [1] =
      .error (.AddressOutOfRange 2 0x607C0000) := by
  constructor
  · have h := hex_address_mapping.1 ⟨[], [], 0, 0⟩ 1 0 0x60 0x00
      (by norm_num [FLEXSPI_BASE]) (by norm_num [FLEXSPI_BASE, CODE_SIZE])
    simpa [FLEXSPI_BASE] using h
  · have h := hex_address_mapping.2.2.1 ⟨[], [], 0, 0x607C0000⟩ 2 1 0 1 []
      (by norm_num) (by norm_num [CODE_SIZE])
    simpa using h

/-- The data-record write loop only fails with address errors. -/
theorem write_bytes_ne_checksum (line_no ext_addr addr : Nat) :
    ∀ (payload : List Nat) (i : Nat) (data : List Nat) (mask : List Bool) (ln : Nat),
    write_bytes line_no ext_addr addr payload i data mask ≠
      .error (.InvalidChecksum ln) := by
  intro payload
  induction payload with
  | nil => intro i data mask ln h; simp [write_bytes] at h
  | cons b rest ih =>
    intro i data mask ln h
    rw [write_bytes] at h
    split at h
    · cases h
    · split at h
      · cases h
      · exact ih _ _ _ _ h

/-- Record dispatch only fails with address errors, never InvalidChecksum. -/
theorem apply_record_ne_checksum (st : ParseState)
    (line_no len addr rec_type : Nat) (payload : List Nat) (ln : Nat) :
    apply_record st line_no len addr rec_type payload ≠
      .error (.InvalidChecksum ln) := by
  intro h
  rw [apply_record] at h
  split at h
  · split at h
    · rename_i e heq
      injection h with h2
      rw [h2] at heq
      exact write_bytes_ne_checksum line_no st.ext_addr addr payload 0 st.data st.mask ln heq
    · cases h
  · split at h
    · cases h
    · split at h
      · split at h <;> cases h
      · split at h
        · split at h <;> cases h
        · cases h

/-- C7: an otherwise well-formed HEX line (colon, valid hex digits, length
field matching) fails with InvalidChecksum at its line number exactly when
its final byte differs from the two's complement, modulo 256, of the sum of
all preceding record bytes. -/
theorem checksum_enforcement (st : ParseState) (line_no : Nat) (raw : Str)
    (rest : Str) (bytes : List Nat)
    (htrim : trimChars raw = ':' :: rest)
    (hdec : decode_hex_bytes rest = .ok bytes)
    (hlen5 : 5 ≤ bytes.length)
    (hlen : bytes.length = 5 + bytes.getD 0 0) :
    (process_line st line_no raw = .error (.InvalidChecksum line_no) ↔
      bytes.getD (bytes.length - 1) 0 ≠ checksum_ihex bytes.dropLast) := by
  have hidx : bytes.length - 1 = 4 + bytes.getD 0 0 := by omega
  have htake : bytes.dropLast = bytes.take (4 + bytes.getD 0 0) := by
    rw [List.dropLast_eq_take, hidx]
  rw [hidx, htake]
  simp only [process_line]
  rw [htrim]
  dsimp only
  rw [if_neg (by simp : ¬ (':' : Char) ≠ ':')]
  rw [hdec]
  dsimp only
  rw [if_neg (by omega : ¬ bytes.length < 5)]
  rw [if_neg (by omega : ¬ bytes.length ≠ 5 + bytes.getD 0 0)]
  by_cases hck : bytes.getD (4 + bytes.getD 0 0) 0 ≠
      checksum_ihex (bytes.take (4 + bytes.getD 0 0))
  · rw [if_pos hck]
    exact ⟨fun _ => hck, fun _ => rfl⟩
  · rw [if_neg hck]
    constructor
    · intro h
      exact absurd h (apply_record_ne_checksum st line_no (bytes.getD 0 0)
        (bytes.getD 1 0 * 256 + bytes.getD 2 0) (bytes.getD 3 0)
        ((bytes.drop 4).take (bytes.getD 0 0)) line_no)
    · intro h
      exact absurd h hck

/-- Witness for the checksum theorem: the corrupt line from the repository
test fails with InvalidChecksum at line 1. -/
theorem checksum_enforcement_witness :
    process_line ⟨[], [], 0, 0⟩ 1 ":04001000DEADBEEF00".data =
      .error (.InvalidChecksum 1) :=
  (checksum_enforcement ⟨[], [], 0, 0⟩ 1 ":04001000DEADBEEF00".data
    "04001000DEADBEEF00".data [0x04, 0x00, 0x10, 0x00, 0xDE, 0xAD, 0xBE, 0xEF, 0x00]
    (by decide) (by rfl) (by decide) (by decide)).mpr (by decide)

/-- A block is not blank exactly when some presence-masked byte in it
differs from 0xFF. -/
theorem is_block_blank_eq_false_iff (data : List Nat) (mask : List Bool) (start : Nat) :
    is_block_blank data mask start = false ↔
    ∃ a, start ≤ a ∧ a < start + BLOCK_SIZE ∧ mask.getD a false = true ∧
      data.getD a 0xFF ≠ 0xFF := by
  rw [is_block_blank, List.all_eq_false]
  constructor
  · rintro ⟨a, ha, hp⟩
    rw [List.mem_range'_1] at ha
    have hp2 : (mask.getD a false && decide (data.getD a 0xFF ≠ 0xFF)) = true := by
      revert hp
      cases mask.getD a false && decide (data.getD a 0xFF ≠ 0xFF) <;> simp
    rw [Bool.and_eq_true, decide_eq_true_eq] at hp2
    exact ⟨a, ha.1, ha.2, hp2.1, hp2.2⟩
  · rintro ⟨a, h1, h2, hm, hd⟩
    refine ⟨a, List.mem_range'_1.mpr ⟨h1, h2⟩, ?_⟩
    have hp2 : (mask.getD a false && decide (data.getD a 0xFF ≠ 0xFF)) = true := by
      rw [Bool.and_eq_true, decide_eq_true_eq]
      exact ⟨hm, hd⟩
    rw [hp2]
    simp

/-- The write-set always contains block zero. -/
theorem blocks_to_write_zero (data : List Nat) (mask : List Bool) :
    (0 : Nat) ∈ blocks_to_write_of data mask := by
  rw [blocks_to_write_of, List.mem_filterMap]
  exact ⟨0, by rw [List.mem_range]; norm_num [CODE_SIZE, BLOCK_SIZE], by simp⟩

/-- A later block is in the write-set exactly when it is not blank. -/
theorem blocks_to_write_mem_iff (data : List Nat) (mask : List Bool) (b : Nat)
    (h0 : 0 < b) (hb : b < CODE_SIZE / BLOCK_SIZE) :
    b * BLOCK_SIZE ∈ blocks_to_write_of data mask ↔
    ∃ a, b * BLOCK_SIZE ≤ a ∧ a < (b + 1) * BLOCK_SIZE ∧
      mask.getD a false = true ∧ data.getD a 0xFF ≠ 0xFF := by
  have hBpos : 0 < BLOCK_SIZE := by norm_num [BLOCK_SIZE]
  rw [blocks_to_write_of, List.mem_filterMap]
  constructor
  · rintro ⟨bi, hbi, hf⟩
    dsimp only at hf
    by_cases hz : bi = 0
    · subst hz
      rw [if_pos rfl] at hf
      injection hf with hf
      exact absurd hf.symm (by positivity)
    · rw [if_neg hz] at hf
      by_cases hblank : is_block_blank data mask (bi * BLOCK_SIZE)
      · rw [if_pos hblank] at hf
        cases hf
      · rw [if_neg hblank] at hf
        injection hf with hf
        have hbieq : bi = b := Nat.eq_of_mul_eq_mul_right hBpos hf
        subst hbieq
        have := is_block_blank_eq_false_iff data mask (bi * BLOCK_SIZE)
        rw [Bool.eq_false_iff] at this
        obtain ⟨a, h1, h2, hm, hd⟩ := this.mp hblank
        exact ⟨a, h1, by rw [Nat.succ_mul]; exact h2, hm, hd⟩
  · rintro ⟨a, h1, h2, hm, hd⟩
    refine ⟨b, List.mem_range.mpr hb, ?_⟩
    dsimp only
    rw [if_neg (by omega : ¬ b = 0)]
    have hblank : is_block_blank data mask (b * BLOCK_SIZE) = false :=
      (is_block_blank_eq_false_iff data mask (b * BLOCK_SIZE)).mpr
        ⟨a, h1, by rw [← Nat.succ_mul]; exact h2, hm, hd⟩
    rw [if_neg (by rw [hblank]; exact Bool.false_ne_true)]

/-- Writing payload bytes preserves the buffer and mask lengths. -/
theorem write_bytes_lengths (line_no ext_addr addr : Nat) :
    ∀ (payload : List Nat) (i : Nat) (data : List Nat) (mask : List Bool)
      (out : List Nat × List Bool),
    write_bytes line_no ext_addr addr payload i data mask = .ok out →
    out.1.length = data.length ∧ out.2.length = mask.length := by
  intro payload
  induction payload with
  | nil =>
    intro i data mask out h
    rw [write_bytes] at h
    injection h with h
    rw [← h]
    exact ⟨rfl, rfl⟩
  | cons b rest ih =>
    intro i data mask out h
    rw [write_bytes] at h
    split at h
    · cases h
    · split at h
      · cases h
      · have := ih (i + 1) _ _ out h
        simpa using this

/-- Record dispatch preserves the buffer and mask lengths. -/
theorem apply_record_lengths (st : ParseState)
    (line_no len addr rec_type : Nat) (payload : List Nat) (s2 : ParseState)
    (h : apply_record st line_no len addr rec_type payload = .ok (.cont s2) ∨
         apply_record st line_no len addr rec_type payload = .ok (.eof s2)) :
    s2.data.length = st.data.length ∧ s2.mask.length = st.mask.length := by
  rcases h with h | h <;>
  · rw [apply_record] at h
    split at h
    · split at h
      · cases h
      · rename_i d2 m2 heq
        injection h with h2
        cases h2
        all_goals simpa using
          write_bytes_lengths line_no st.ext_addr addr payload 0 st.data st.mask (d2, m2) heq
    · split at h
      · injection h with h2
        cases h2
        all_goals exact ⟨rfl, rfl⟩
      · split at h
        · split at h
          all_goals
            injection h with h2
            cases h2
            all_goals exact ⟨rfl, rfl⟩
        · split at h
          · split at h
            all_goals
              injection h with h2
              cases h2
              all_goals exact ⟨rfl, rfl⟩
          · injection h with h2
            cases h2
            all_goals exact ⟨rfl, rfl⟩

/-- Processing one line preserves the buffer and mask lengths. -/
theorem process_line_lengths (st : ParseState) (line_no : Nat) (raw : Str)
    (s2 : ParseState)
    (h : process_line st line_no raw = .ok (.cont s2) ∨
         process_line st line_no raw = .ok (.eof s2)) :
    s2.data.length = st.data.length ∧ s2.mask.length = st.mask.length := by
  rcases h with h | h <;>
  · rw [process_line] at h
    split at h
    · injection h with h2
      cases h2
      all_goals exact ⟨rfl, rfl⟩
    · split at h
      · cases h
      · split at h
        · cases h
        · split at h
          · cases h
          · dsimp only at h
            split at h
            · cases h
            · split at h
              · cases h
              · first
                | exact apply_record_lengths st line_no _ _ _ _ s2 (Or.inl h)
                | exact apply_record_lengths st line_no _ _ _ _ s2 (Or.inr h)

/-- The parse loop preserves the buffer and mask lengths. -/
theorem load_lines_lengths :
    ∀ (lines : List Str) (line_no : Nat) (st st2 : ParseState),
    load_lines lines line_no st = .ok st2 →
    st2.data.length = st.data.length ∧ st2.mask.length = st.mask.length := by
  intro lines
  induction lines with
  | nil =>
    intro line_no st st2 h
    rw [load_lines] at h
    injection h with h
    rw [h]
    exact ⟨rfl, rfl⟩
  | cons l ls ih =>
    intro line_no st st2 h
    rw [load_lines] at h
    split at h
    · cases h
    · rename_i heq
      injection h with h2
      rw [← h2]
      exact process_line_lengths st line_no l _ (Or.inr heq)
    · rename_i heq
      have h1 := process_line_lengths st line_no l _ (Or.inl heq)
      have h2 := ih (line_no + 1) _ st2 h
      exact ⟨h2.1.trans h1.1, h2.2.trans h1.2⟩

set_option maxRecDepth 100000 in
/-- C2: for every successfully parsed HEX input, block 0 is always in the
write-set, and a later block start b * 1024 is in the write-set exactly when
some address in that block has its presence mask set and a byte value other
than 0xFF; the final buffers keep the CODE_SIZE length. -/
theorem hex_blocks_to_write_spec (lines : List Str) (st : ParseState)
    (h : load_lines lines 1 initState = .ok st) :
    load_teensy41 lines = .ok (image_of st) ∧
    st.data.length = CODE_SIZE ∧ st.mask.length = CODE_SIZE ∧
    (0 : Nat) ∈ (image_of st).blocks_to_write ∧
    ∀ b, 0 < b → b < CODE_SIZE / BLOCK_SIZE →
      (b * BLOCK_SIZE ∈ (image_of st).blocks_to_write ↔
        ∃ a, b * BLOCK_SIZE ≤ a ∧ a < (b + 1) * BLOCK_SIZE ∧
          st.mask.getD a false = true ∧ st.data.getD a 0xFF ≠ 0xFF) := by
  have hlen := load_lines_lengths lines 1 initState st h
  have hinit1 : initState.data.length = CODE_SIZE := List.length_replicate _ _
  have hinit2 : initState.mask.length = CODE_SIZE := List.length_replicate _ _
  refine ⟨by rw [load_teensy41, h]; rfl,
    hlen.1.trans hinit1,
    hlen.2.trans hinit2,
    blocks_to_write_zero st.data st.mask,
    fun b h0 hb => blocks_to_write_mem_iff st.data st.mask b h0 hb⟩

set_option maxRecDepth 100000 in
/-- Witness for the write-set theorem: the empty input parses to the initial
state, whose write-set contains block 0. -/
theorem hex_blocks_to_write_spec_witness :
    load_lines [] 1 initState = .ok initState ∧
    (0 : Nat) ∈ (image_of initState).blocks_to_write :=
  ⟨rfl, (hex_blocks_to_write_spec [] initState rfl).2.2.2.1⟩

/-- Control-method pause carries a guard exactly when it pauses. -/
theorem pause_control_only_guard (opts : BridgeControlOptions) (oracle : BridgeOracle)
    (info : BridgePauseInfo)
    (h : (pause_control_only opts oracle).outcome = .Paused info) :
    (pause_control_only opts oracle).guard.isSome = true := by
  unfold pause_control_only at h ⊢
  split at h <;> simp_all

/-- Service-method pause carries a guard exactly when it pauses. -/
theorem pause_service_only_guard (opts : BridgeControlOptions) (service_id : Str)
    (oracle : BridgeOracle) (info : BridgePauseInfo)
    (h : (pause_service_only opts service_id oracle).outcome = .Paused info) :
    (pause_service_only opts service_id oracle).guard.isSome = true := by
  unfold pause_service_only at h ⊢
  split at h <;>
    first
      | (split at h <;> simp_all)
      | simp_all

/-- Process-method pause carries a guard exactly when it pauses. -/
theorem pause_process_only_guard (opts : BridgeControlOptions) (oracle : BridgeOracle)
    (info : BridgePauseInfo)
    (h : (pause_process_only opts oracle).outcome = .Paused info) :
    (pause_process_only opts oracle).guard.isSome = true := by
  unfold pause_process_only at h ⊢
  split at h <;>
    first
      | (split at h <;> simp_all)
      | simp_all

/-- Auto-method pause carries a guard exactly when it pauses. -/
theorem pause_auto_guard (opts : BridgeControlOptions) (service_id : Str)
    (oracle : BridgeOracle) (info : BridgePauseInfo)
    (h : (pause_auto opts service_id oracle).outcome = .Paused info) :
    (pause_auto opts service_id oracle).guard.isSome = true := by
  unfold pause_auto at h ⊢
  split at h <;>
    first
      | (split at h <;>
          first
            | (split at h <;>
                first
                  | (split at h <;> simp_all)
                  | simp_all)
            | simp_all)
      | simp_all

/-- A Paused outcome of pause_oc_bridge always comes with a live guard. -/
theorem pause_oc_bridge_guard (opts : BridgeControlOptions) (oracle : BridgeOracle)
    (info : BridgePauseInfo)
    (h : (pause_oc_bridge opts oracle).outcome = .Paused info) :
    (pause_oc_bridge opts oracle).guard.isSome = true := by
  obtain ⟨en, method, apf, sid, tmo, cp, ct⟩ := opts
  cases en with
  | false =>
    unfold pause_oc_bridge at h
    simp at h
  | true =>
    unfold pause_oc_bridge at h ⊢
    cases method with
    | Auto =>
      simp only [Bool.not_true, Bool.false_or, decide_eq_true_eq] at h ⊢
      rw [if_neg (by simp)] at h ⊢
      exact pause_auto_guard ⟨true, .Auto, apf, sid, tmo, cp, ct⟩ _ oracle info h
    | Control =>
      simp only [Bool.not_true, Bool.false_or, decide_eq_true_eq] at h ⊢
      rw [if_neg (by simp)] at h ⊢
      exact pause_control_only_guard ⟨true, .Control, apf, sid, tmo, cp, ct⟩ oracle info h
    | Service =>
      simp only [Bool.not_true, Bool.false_or, decide_eq_true_eq] at h ⊢
      rw [if_neg (by simp)] at h ⊢
      exact pause_service_only_guard ⟨true, .Service, apf, sid, tmo, cp, ct⟩ _ oracle info h
    | Process =>
      simp only [Bool.not_true, Bool.false_or, decide_eq_true_eq] at h ⊢
      rw [if_neg (by simp)] at h ⊢
      exact pause_process_only_guard ⟨true, .Process, apf, sid, tmo, cp, ct⟩ oracle info h
    | NoneMethod =>
      simp at h

/-- The write-retry loop only emits Retry events. -/
theorem write_loop_no_bridge (oracle : FlashOracle) (path target_id : Str) (addr : Nat) :
    ∀ (attempt fuel : Nat) (e : OperationEvent),
    e ∈ (write_loop oracle path target_id addr attempt fuel).1 → isBridgeEv e = false := by
  intro attempt fuel
  induction fuel generalizing attempt with
  | zero => intro e he; simp [write_loop] at he
  | succ f ih =>
    intro e he
    rw [write_loop] at he
    split at he
    · simp at he
    · split at he
      · simp at he
      · split at he
        · rcases List.mem_cons.mp he with h | h
          · rw [h]; rfl
          · exact ih (attempt + 1) e h
        · rcases List.mem_cons.mp he with h | h
          · rw [h]; rfl
          · simp at h

/-- Block streaming only emits Block and Retry events. -/
theorem stream_blocks_no_bridge (oracle : FlashOracle) (path target_id : Str)
    (total : Nat) :
    ∀ (blocks : List (Nat × Nat)) (e : OperationEvent),
    e ∈ (stream_blocks oracle path target_id total blocks).1 → isBridgeEv e = false := by
  intro blocks
  induction blocks with
  | nil => intro e he; simp [stream_blocks] at he
  | cons hd rest ih =>
    intro e he
    rcases hd with ⟨i, addr⟩
    rw [stream_blocks] at he
    split at he
    · rcases List.mem_cons.mp he with h | h
      · rw [h]; rfl
      · exact write_loop_no_bridge oracle path target_id addr 1 (oracle.retries + 1) e h
    · rcases List.mem_cons.mp he with h | h
      · rw [h]; rfl
      · rcases List.mem_append.mp h with h2 | h2
        · exact write_loop_no_bridge oracle path target_id addr 1 (oracle.retries + 1) e h2
        · exact ih e h2

/-- Flashing one HalfKay path emits no bridge lifecycle event. -/
theorem flash_halfkay_path_no_bridge (oracle : FlashOracle) (path target_id : Str)
    (e : OperationEvent)
    (he : e ∈ (flash_halfkay_path oracle path target_id).1) : isBridgeEv e = false := by
  rw [flash_halfkay_path] at he
  split at he
  · simp at he
  · dsimp only at he
    cases hst : (stream_blocks oracle path target_id oracle.blocks.length
        oracle.blocks.enum).2 with
    | error err =>
      rw [hst] at he
      dsimp only at he
      rcases List.mem_cons.mp he with h | h
      · rw [h]; rfl
      · exact stream_blocks_no_bridge oracle path target_id _ _ e h
    | ok u =>
      cases u
      rw [hst] at he
      dsimp only at he
      rcases List.mem_cons.mp he with h | h
      · rw [h]; rfl
      · rcases List.mem_append.mp h with h2 | h2
        · rcases List.mem_append.mp h2 with h3 | h3
          · exact stream_blocks_no_bridge oracle path target_id _ _ e h3
          · split at h3
            · simp at h3
            · rw [List.mem_singleton.mp h3]; rfl
        · rw [List.mem_singleton.mp h2]; rfl

/-- Flashing one target emits no bridge lifecycle event. -/
theorem flash_one_target_no_bridge (oracle : FlashOracle) (t : Target) (target_id : Str)
    (e : OperationEvent)
    (he : e ∈ (flash_one_target oracle t target_id).1) : isBridgeEv e = false := by
  cases t with
  | HalfKay hk => exact flash_halfkay_path_no_bridge oracle hk.path target_id e he
  | Serial s =>
    rw [flash_one_target] at he
    split at he
    · rcases List.mem_singleton.mp he with h
      rw [h]; rfl
    · split at he
      · rcases List.mem_singleton.mp he with h
        rw [h]; rfl
      · dsimp only at he
        rcases List.mem_cons.mp he with h | h
        · rw [h]; rfl
        · rcases List.mem_cons.mp h with h2 | h2
          · rw [h2]; rfl
          · rename_i hk_path _
            exact flash_halfkay_path_no_bridge oracle _ target_id e h2

/-- The per-target loop emits no bridge lifecycle event. -/
theorem flash_target_loop_no_bridge (oracle : FlashOracle) (multi : Bool) :
    ∀ (targets : List Target) (e : OperationEvent),
    e ∈ (flash_target_loop oracle multi targets).1 → isBridgeEv e = false := by
  intro targets
  induction targets with
  | nil => intro e he; simp [flash_target_loop] at he
  | cons t ts ih =>
    intro e he
    rw [flash_target_loop] at he
    split at he
    · dsimp only at he
      rcases List.mem_cons.mp he with h | h
      · rw [h]; rfl
      · rcases List.mem_append.mp h with h2 | h2
        · exact flash_one_target_no_bridge oracle t t.id e h2
        · rcases List.mem_cons.mp h2 with h3 | h3
          · rw [h3]; rfl
          · exact ih e h3
    · split at he
      · dsimp only at he
        rcases List.mem_cons.mp he with h | h
        · rw [h]; rfl
        · rcases List.mem_append.mp h with h2 | h2
          · exact flash_one_target_no_bridge oracle t t.id e h2
          · rcases List.mem_cons.mp h2 with h3 | h3
            · rw [h3]; rfl
            · exact ih e h3
      · dsimp only at he
        rcases List.mem_cons.mp he with h | h
        · rw [h]; rfl
        · rcases List.mem_append.mp h with h2 | h2
          · exact flash_one_target_no_bridge oracle t t.id e h2
          · rcases List.mem_singleton.mp h2 with h3
            rw [h3]; rfl

/-- BridgePaused is a bridge lifecycle event. -/
theorem isBridgePausedEv_isBridge (e : OperationEvent)
    (h : isBridgePausedEv e = true) : isBridgeEv e = true := by
  cases e <;> first | rfl | simp [isBridgePausedEv] at h

/-- Resume-final events are bridge lifecycle events. -/
theorem isResumeFinalEv_isBridge (e : OperationEvent)
    (h : isResumeFinalEv e = true) : isBridgeEv e = true := by
  cases e <;> first | rfl | simp [isResumeFinalEv] at h

/-- C8: a flash run that emits BridgePaused ends its event trace with
BridgeResumeStart followed by exactly one of BridgeResumed or
BridgeResumeFailed, neither of which occurs earlier, and the modelled
outcome of the resume attempt never changes the returned result. -/
theorem flash_resume_guarantee (selected : List Target)
    (bridge : BridgeControlOptions) (boracle : BridgeOracle) (oracle : FlashOracle)
    (hpause : (flash_run selected bridge boracle oracle).1.any isBridgePausedEv = true) :
    (∃ pre last, (flash_run selected bridge boracle oracle).1 =
        pre ++ [OperationEvent.BridgeResumeStart, last] ∧
      isResumeFinalEv last = true ∧
      (∀ e ∈ pre, isResumeFinalEv e = false) ∧
      OperationEvent.BridgeResumeStart ∉ pre) ∧
    (∀ b, (flash_run selected bridge (boracle.withResumeOk b) oracle).2 =
      (flash_run selected bridge boracle oracle).2) := by
  have hloop := flash_target_loop_no_bridge oracle (1 < selected.length) selected
  have hns : selected.any (fun t => t.kind = TargetKind.Serial) = true := by
    by_contra hc
    rw [Bool.not_eq_true] at hc
    simp only [flash_run, hc, Bool.false_eq_true, if_false, resume_events,
      List.nil_append, List.append_nil] at hpause
    obtain ⟨e, hmem, hev⟩ := List.any_eq_true.mp hpause
    have hb := flash_target_loop_no_bridge oracle _ selected e hmem
    rw [isBridgePausedEv_isBridge e hev] at hb
    cases hb
  cases houtcome : (pause_oc_bridge bridge boracle).outcome with
  | Skipped r =>
    exfalso
    simp only [flash_run, hns, if_true, houtcome, List.any_append, List.any_cons,
      List.any_nil, Bool.or_eq_true] at hpause
    rcases hpause with (((h | h | h) | h) | h)
    · cases h
    · cases h
    · cases h
    · obtain ⟨e, hmem, hev⟩ := List.any_eq_true.mp h
      have hb := flash_target_loop_no_bridge oracle _ selected e hmem
      rw [isBridgePausedEv_isBridge e hev] at hb
      cases hb
    · rcases hg : (pause_oc_bridge bridge boracle).guard with _ | g
      · rw [hg, resume_events] at h
        simp at h
      · rw [hg, resume_events] at h
        simp only [List.any_cons, List.any_nil, Bool.or_eq_true] at h
        rcases h with h | h | h
        · cases h
        · revert h
          split <;> intro h <;> cases h
        · cases h
  | Failed err =>
    exfalso
    simp only [flash_run, hns, if_true, houtcome, List.any_append, List.any_cons,
      List.any_nil, Bool.or_eq_true] at hpause
    rcases hpause with (((h | h | h) | h) | h)
    · cases h
    · cases h
    · cases h
    · obtain ⟨e, hmem, hev⟩ := List.any_eq_true.mp h
      have hb := flash_target_loop_no_bridge oracle _ selected e hmem
      rw [isBridgePausedEv_isBridge e hev] at hb
      cases hb
    · rcases hg : (pause_oc_bridge bridge boracle).guard with _ | g
      · rw [hg, resume_events] at h
        simp at h
      · rw [hg, resume_events] at h
        simp only [List.any_cons, List.any_nil, Bool.or_eq_true] at h
        rcases h with h | h | h
        · cases h
        · revert h
          split <;> intro h <;> cases h
        · cases h
  | Paused info =>
    have hgs := pause_oc_bridge_guard bridge boracle info houtcome
    obtain ⟨g, hg⟩ := Option.isSome_iff_exists.mp hgs
    constructor
    · refine ⟨(OperationEvent.BridgePauseStart :: OperationEvent.BridgePaused info ::
        (flash_target_loop oracle (1 < selected.length) selected).1),
        (if g.resume_ok then OperationEvent.BridgeResumed
         else OperationEvent.BridgeResumeFailed ⟨"bridge resume failed".data, g.hint⟩),
        ?_, ?_, ?_, ?_⟩
      · simp only [flash_run, hns, if_true, houtcome, hg, resume_events]
        simp
      · cases g.resume_ok <;> rfl
      · intro e hmem
        rcases List.mem_cons.mp hmem with h | h
        · rw [h]; rfl
        · rcases List.mem_cons.mp h with h2 | h2
          · rw [h2]; rfl
          · have hb := flash_target_loop_no_bridge oracle _ selected e h2
            by_cases hrf : isResumeFinalEv e = true
            · rw [isResumeFinalEv_isBridge e hrf] at hb
              cases hb
            · exact Bool.not_eq_true _ ▸ (Bool.eq_false_iff.mpr hrf)
      · intro hmem
        rcases List.mem_cons.mp hmem with h | h
        · cases h
        · rcases List.mem_cons.mp h with h2 | h2
          · cases h2
          · have hb := flash_target_loop_no_bridge oracle _ selected _ h2
            cases hb
    · intro b
      rfl

/-- Witness for the resume guarantee on a concrete paused run. -/
theorem flash_resume_guarantee_witness :
    ((flash_run [Target.Serial ⟨"COM6".data, 0x16C0, 0x0489, none, none, none⟩]
        ⟨true, .Control, false, none, 1000, 7999, 1000⟩
        ⟨true, .ok .Running, true, .Skipped .NotRunning, true⟩
        ⟨fun _ => .ok (), .ok "HK1".data, fun _ => true, fun _ _ => true,
         fun _ => true, [0], 3, false⟩).1.any isBridgePausedEv = true) ∧
    (∃ pre last, (flash_run [Target.Serial ⟨"COM6".data, 0x16C0, 0x0489, none, none, none⟩]
        ⟨true, .Control, false, none, 1000, 7999, 1000⟩
        ⟨true, .ok .Running, true, .Skipped .NotRunning, true⟩
        ⟨fun _ => .ok (), .ok "HK1".data, fun _ => true, fun _ _ => true,
         fun _ => true, [0], 3, false⟩).1 =
        pre ++ [OperationEvent.BridgeResumeStart, last] ∧
      isResumeFinalEv last = true ∧
      (∀ e ∈ pre, isResumeFinalEv e = false) ∧
      OperationEvent.BridgeResumeStart ∉ pre) :=
  ⟨by rfl,
   (flash_resume_guarantee [Target.Serial ⟨"COM6".data, 0x16C0, 0x0489, none, none, none⟩]
      ⟨true, .Control, false, none, 1000, 7999, 1000⟩
      ⟨true, .ok .Running, true, .Skipped .NotRunning, true⟩
      ⟨fun _ => .ok (), .ok "HK1".data, fun _ => true, fun _ _ => true,
       fun _ => true, [0], 3, false⟩ (by rfl)).1⟩

/-- C1 evaluation: with one Serial target selected and a Failed bridge
pause, flash_teensy41_with_selection (modelled by flash_run) emits
BridgePauseFailed and then still soft-reboots the target, opens HalfKay and
streams blocks, returning Ok; the claimed abort with a BridgePauseFailed
error does not happen. -/
theorem flash_pause_failed_not_aborted :
    ((flash_run [Target.Serial ⟨"COM6".data, 0x16C0, 0x0489, none, none, none⟩]
        ⟨true, .Control, false, none, 1000, 7999, 1000⟩
        ⟨false, .ok .Running, true, .Skipped .NotRunning, true⟩
        ⟨fun _ => .ok (), .ok "HK1".data, fun _ => true, fun _ _ => true,
         fun _ => true, [0], 3, false⟩).2 = .ok ()) ∧
    ((flash_run [Target.Serial ⟨"COM6".data, 0x16C0, 0x0489, none, none, none⟩]
        ⟨true, .Control, false, none, 1000, 7999, 1000⟩
        ⟨false, .ok .Running, true, .Skipped .NotRunning, true⟩
        ⟨fun _ => .ok (), .ok "HK1".data, fun _ => true, fun _ _ => true,
         fun _ => true, [0], 3, false⟩).1.any isBridgePauseFailedEv = true) ∧
    ((flash_run [Target.Serial ⟨"COM6".data, 0x16C0, 0x0489, none, none, none⟩]
        ⟨true, .Control, false, none, 1000, 7999, 1000⟩
        ⟨false, .ok .Running, true, .Skipped .NotRunning, true⟩
        ⟨fun _ => .ok (), .ok "HK1".data, fun _ => true, fun _ _ => true,
         fun _ => true, [0], 3, false⟩).1.any isSoftRebootEv = true) ∧
    ((flash_run [Target.Serial ⟨"COM6".data, 0x16C0, 0x0489, none, none, none⟩]
        ⟨true, .Control, false, none, 1000, 7999, 1000⟩
        ⟨false, .ok .Running, true, .Skipped .NotRunning, true⟩
        ⟨fun _ => .ok (), .ok "HK1".data, fun _ => true, fun _ _ => true,
         fun _ => true, [0], 3, false⟩).1.any isHalfKayOpenEv = true) ∧
    ((flash_run [Target.Serial ⟨"COM6".data, 0x16C0, 0x0489, none, none, none⟩]
        ⟨true, .Control, false, none, 1000, 7999, 1000⟩
        ⟨false, .ok .Running, true, .Skipped .NotRunning, true⟩
        ⟨fun _ => .ok (), .ok "HK1".data, fun _ => true, fun _ _ => true,
         fun _ => true, [0], 3, false⟩).1.any isBlockEv = true) :=
  ⟨rfl, rfl, rfl, rfl, rfl⟩

/-- The generic runner, by contrast, aborts on a Failed pause: it emits only
BridgePauseStart and BridgePauseFailed and returns the adapted
bridge-pause error without starting any target. -/
theorem runner_pause_failed_aborts (E : Type) (msg : E → Str)
    (selected : List Target) (bridge : BridgeControlOptions) (boracle : BridgeOracle)
    (run_target : Target → Str → List OperationEvent × Except E Unit)
    (errors : RunTargetsErrors E) (err : BridgeControlErrorInfo)
    (hns : selected.any (fun t => t.kind = TargetKind.Serial) = true)
    (hfail : (pause_oc_bridge bridge boracle).outcome = .Failed err) :
    run_targets_with_bridge E msg selected bridge boracle run_target errors =
      ([.BridgePauseStart, .BridgePauseFailed err],
       .error (errors.make_bridge_pause_failed err)) := by
  simp only [run_targets_with_bridge, hns, if_true, hfail]

/-- Witness for the runner abort: a concrete Failed pause aborts the run
before any target event. -/
theorem runner_pause_failed_aborts_witness :
    run_targets_with_bridge Unit (fun _ => [])
      [Target.Serial ⟨"COM6".data, 0x16C0, 0x0489, none, none, none⟩]
      ⟨true, .Control, false, none, 1000, 7999, 1000⟩
      ⟨false, .ok .Running, true, .Skipped .NotRunning, true⟩
      (fun _ _ => ([], .ok ()))
      ⟨fun _ => false, fun _ => (), fun _ _ => (), fun _ => ()⟩ =
      ([.BridgePauseStart,
        .BridgePauseFailed ⟨"oc-bridge control pause failed".data,
          some "retry the control pause".data⟩],
       .error ()) :=
  runner_pause_failed_aborts Unit (fun _ => [])
    [Target.Serial ⟨"COM6".data, 0x16C0, 0x0489, none, none, none⟩]
    ⟨true, .Control, false, none, 1000, 7999, 1000⟩
    ⟨false, .ok .Running, true, .Skipped .NotRunning, true⟩
    (fun _ _ => ([], .ok ()))
    ⟨fun _ => false, fun _ => (), fun _ _ => (), fun _ => ()⟩
    ⟨"oc-bridge control pause failed".data, some "retry the control pause".data⟩
    (by rfl) (by rfl)
